import Mathlib

/-
  Verification development for the notifyxsoverlay bridge.

  The Python modules `config.py` and `bridge.py` are embedded shallowly:
  - JSON documents (Python dicts as produced by json.loads) become the
    inductive type JVal; objects are insertion-ordered association lists,
    matching CPython dict semantics (assignment updates in place, new keys
    append at the end).
  - Functions that can raise return Option (none = an exception escapes).
  - Timestamps handled by the dedup cache are modelled as integers; JSON
    numbers in configs are modelled as rationals.
  - The filesystem touched by load_config/save_config is modelled as a
    Disk record holding the primary and backup file contents; a file is
    either corrupt (unreadable or unparsable) or holds a parsed JSON value.
    Success of the atomic replace is an explicit boolean parameter.
-/

namespace NotifyXS

/-- JSON values, as produced by json.loads in config.py. -/
inductive JVal where
  | null
  | bool (b : Bool)
  | num (q : Rat)
  | str (s : String)
  | arr (xs : List JVal)
  | obj (fields : List (String × JVal))

abbrev JObj := List (String × JVal)

/-- Python dict lookup d.get(k): first entry with the key. -/
def dictGet : JObj → String → Option JVal
  | [], _ => none
  | (k', v') :: rest, k => if k' = k then some v' else dictGet rest k

/-- Python `k in d`. -/
def dictHasKey (o : JObj) (k : String) : Bool := (dictGet o k).isSome

/-- Python dict assignment d[k] = v: update in place, else append. -/
def dictSet : JObj → String → JVal → JObj
  | [], k, v => [(k, v)]
  | (k', v') :: rest, k, v => if k' = k then (k, v) :: rest else (k', v') :: dictSet rest k v

/-- Python d.pop(k, None): drop the entry with the key, if any. -/
def dictPop (o : JObj) (k : String) : JObj := o.filter fun kv => decide (kv.1 ≠ k)

/-- Python d.setdefault(k, v): the value now at k, and the updated dict. -/
def setdefault (o : JObj) (k : String) (v : JVal) : JVal × JObj :=
  match dictGet o k with
  | some w => (w, o)
  | none => (v, dictSet o k v)

/-- app.py: APP_NAME. -/
def APP_NAME : String := "NotifyXSOverlay"

/-- config.py: DEFAULT_WS_URL. -/
def DEFAULT_WS_URL : String := "ws://127.0.0.1:42070/?client=" ++ APP_NAME

/-- config.py: default_config(). -/
def default_config : JObj :=
  [("filters", .obj [("allow", .arr [.str "com.squirrel.Discord.Discord"]),
                     ("block", .arr [])]),
   ("learning", .obj [("enabled", .bool true),
                      ("last_reset", .null),
                      ("pending", .obj []),
                      ("shown_session", .obj [])]),
   ("xs_overlay", .obj [("ws_url", .str DEFAULT_WS_URL),
                        ("notification_timeout_seconds", .num 3.0),
                        ("notification_opacity", .num 0.6)]),
   ("poll_interval_seconds", .num 1.0)]

mutual

/-- The per-key body of config.py's _deep_merge first loop, for a key present
in data: recurse when the default and the loaded value are both dicts, else
the loaded value wins. -/
def mergeVal : JVal → JVal → JVal
  | .obj dsub, .obj xsub =>
    .obj (mergeFields dsub xsub ++ xsub.filter (fun kv => (dictGet dsub kv.1).isNone))
  | _, dv => dv

/-- The first loop of config.py's _deep_merge: one entry per defaults key,
the loaded value winning (recursively for dicts) when the key is in data. -/
def mergeFields : List (String × JVal) → JObj → JObj
  | [], _ => []
  | (k, v) :: rest, data =>
    (k, match dictGet data k with
        | some dv => mergeVal v dv
        | none => v) :: mergeFields rest data

end

/-- config.py: _deep_merge(defaults, data). The first loop produces an entry
per defaults key (recursing when both values are dicts, else the loaded
value wins when present); the second loop appends the data entries whose
key is not among the defaults keys. -/
def deep_merge (defaults data : JObj) : JObj :=
  mergeFields defaults data ++ data.filter (fun kv => (dictGet defaults kv.1).isNone)

/-- config.py: the allow/block coercions of normalize_config, applied to
merged.get("filters", \x7b\x7d). A non-dict value raises AttributeError at
filters.get (none). -/
def coerceFilters : JVal → Option JObj
  | .obj filters0 =>
    let filters1 := match dictGet filters0 "allow" with
      | some (.arr _) => filters0
      | _ => dictSet filters0 "allow" (.arr [])
    let filters2 := match dictGet filters1 "block" with
      | some (.arr _) => filters1
      | _ => dictSet filters1 "block" (.arr [])
    some filters2
  | _ => none

/-- config.py: the pending/shown_session coercions and the shown_today legacy
migration of normalize_config, applied to merged.get("learning", \x7b\x7d).
A non-dict value raises AttributeError at learning.get (none). -/
def coerceLearning : JVal → Option JObj
  | .obj learning0 =>
    let learning1 := match dictGet learning0 "pending" with
      | some (.obj _) => learning0
      | _ => dictSet learning0 "pending" (.obj [])
    let learning2 := match dictGet learning1 "shown_session" with
      | some (.obj _) => learning1
      | _ => match dictGet learning1 "shown_today" with
             | some (.obj legacy) => dictSet learning1 "shown_session" (.obj legacy)
             | _ => dictSet learning1 "shown_session" (.obj [])
    some (dictPop learning2 "shown_today")
  | _ => none

/-- config.py: normalize_config(data). -/
def normalize_config (data : JObj) : Option JObj :=
  let merged := deep_merge default_config data
  match coerceFilters ((dictGet merged "filters").getD (.obj [])) with
  | none => none
  | some filters2 =>
    match coerceLearning ((dictGet merged "learning").getD (.obj [])) with
    | none => none
    | some learning3 =>
      some (dictSet (dictSet merged "filters" (.obj filters2)) "learning" (.obj learning3))

/-- Python equality of a JSON value (or a missing one, i.e. None) against a
string: only an equal string compares equal. -/
def eqStrOpt : Option JVal → String → Bool
  | some (.str s), k => s = k
  | _, _ => false

/-- config.py: reset_learning_state(config, session_id). The dict returned by
config.get("learning", \x7b\x7d) aliases config's entry exactly when the key
is present; mutations of a fresh default dict are lost. A non-dict learning
value raises AttributeError at learning.get (none). -/
def reset_learning_state (config : JObj) (session_id : String) : Option (JObj × Bool) :=
  match dictGet config "learning" with
  | some (.obj l) =>
    if eqStrOpt (dictGet l "last_reset") session_id then some (config, false)
    else some (dictSet config "learning"
      (.obj (dictSet (dictSet l "last_reset" (.str session_id)) "shown_session" (.obj []))), true)
  | some _ => none
  | none => some (config, true)

/-- A file on disk: corrupt covers an unreadable file and unparsable text;
jval v is a file whose text parses to the JSON value v. -/
inductive FileContent where
  | corrupt
  | jval (v : JVal)

/-- The two files load_config/save_config touch: the primary config file and
its .bak sibling. none = the file does not exist. -/
structure Disk where
  primary : Option FileContent
  backup : Option FileContent

/-- config.py: _read_json(path) on an existing file: some only for a file
parsing to a JSON object. -/
def read_json : FileContent → Option JObj
  | .corrupt => none
  | .jval (.obj o) => some o
  | .jval _ => none

/-- config.py: load_config(path, fallback). writeOk tells whether the atomic
rewrite of the primary during a backup restore succeeds (its failure is
caught and logged). none = an exception escapes (normalize_config raising). -/
def load_config (disk : Disk) (writeOk : Bool) (fallback : Option JObj) : Option (JObj × Disk) :=
  match disk.primary with
  | none => some (default_config, disk)
  | some pc =>
    match read_json pc with
    | some data => (normalize_config data).map (fun c => (c, disk))
    | none =>
      match disk.backup.bind read_json with
      | some backup_data =>
        match normalize_config backup_data with
        | none => none
        | some normalized =>
          some (normalized,
            if writeOk then { disk with primary := some (.jval (.obj normalized)) } else disk)
      | none =>
        match fallback with
        | some fb => some (fb, disk)
        | none => some (default_config, disk)

/-- config.py: _write_text_atomic(path, content, backup). backupOk is whether
shutil.copyfile succeeds (failure logged, write proceeds); replaceOk is
whether tmp_path.replace(path) succeeds (failure raises: none). Returns the
disk afterwards (none on raise) and the log events emitted. -/
def write_text_atomic (disk : Disk) (content : JObj) (withBackup backupOk replaceOk : Bool) :
    Option Disk × List String :=
  let step :=
    if withBackup && disk.primary.isSome then
      if backupOk then ({ disk with backup := disk.primary }, ([] : List String))
      else (disk, ["config_backup_failed"])
    else (disk, [])
  if replaceOk then (some { step.1 with primary := some (.jval (.obj content)) }, step.2)
  else (none, step.2)

/-- config.py: save_config(path, data). The write failure is caught and one
config_save_failed event is logged on every failing call. Returns the disk
afterwards and the log events of the call; the function never raises. -/
def save_config (disk : Disk) (data : JObj) (backupOk replaceOk : Bool) : Disk × List String :=
  match write_text_atomic disk data true backupOk replaceOk with
  | (some disk2, logs) => (disk2, logs)
  | (none, logs) => (disk, logs ++ ["config_save_failed"])

/-- bridge.py: _prune_seen(seen, max_age_seconds, max_size), with now passed
explicitly and timestamps as integers. Phase one deletes entries with
now - ts > max_age; phase two, when more than max_size remain, deletes the
keys of the oldest len - max_size entries of the stable sort by timestamp. -/
def prune_seen (seen : List (String × Int)) (now max_age : Int) (max_size : Nat) :
    List (String × Int) :=
  let fresh := seen.filter fun kv => !(decide (now - kv.2 > max_age))
  if fresh.length > max_size then
    let victims := ((fresh.mergeSort fun a b => decide (a.2 ≤ b.2)).take
      (fresh.length - max_size)).map Prod.fst
    fresh.filter fun kv => !(victims.contains kv.1)
  else fresh

/-- Python list-of-chars startswith check used to define substring search. -/
def startsWithL : List Char → List Char → Bool
  | [], _ => true
  | _ :: _, [] => false
  | a :: as, b :: bs => (a = b) && startsWithL as bs

/-- Python substring containment (pat in s) over char lists. -/
def hasSubstrL (pat : List Char) : List Char → Bool
  | [] => pat.isEmpty
  | b :: bs => startsWithL pat (b :: bs) || hasSubstrL pat bs

/-- Python `pat in s` on strings. -/
def containsSub (s pat : String) : Bool := hasSubstrL pat.toList s.toList

/-- bridge.py: _ensure_client_param(ws_url). -/
def ensure_client_param (ws_url : String) : String :=
  if containsSub ws_url "?client=" || containsSub ws_url "&client=" then ws_url
  else if containsSub ws_url "?" then ws_url ++ "&client=" ++ APP_NAME
  else ws_url ++ "?client=" ++ APP_NAME

/-- bridge.py: FilterDecision. -/
structure FilterDecision where
  allow : Bool
  reason : String
  updated : Bool

/-- Python truthiness of a JSON value. -/
def truthy : JVal → Bool
  | .null => false
  | .bool b => b
  | .num q => decide (q ≠ 0)
  | .str s => decide (s ≠ "")
  | .arr xs => !xs.isEmpty
  | .obj o => !o.isEmpty

/-- Whether a JSON value is hashable in Python (lists and dicts are not). -/
def hashable : JVal → Bool
  | .arr _ => false
  | .obj _ => false
  | _ => true

/-- Python set(v) as used for the allow/block lists: the members, or none
when set() raises (non-iterable value, or an unhashable element). Iterating
a string yields its characters, iterating a dict its keys. -/
def toSet : JVal → Option (List JVal)
  | .arr xs => if xs.all hashable then some xs else none
  | .str s => some (s.toList.map fun c => .str (String.singleton c))
  | .obj o => some (o.map fun kv => .str kv.1)
  | _ => none

/-- Python membership of a string in a collection of JSON values: only an
equal string compares equal. -/
def setHasStr : List JVal → String → Bool
  | [], _ => false
  | .str s :: rest, k => (s = k) || setHasStr rest k
  | _ :: rest, k => setHasStr rest k

/-- Python `k in v` for a string key k: dict key lookup, list membership,
substring for strings; none (TypeError) otherwise. -/
def pyContains : JVal → String → Option Bool
  | .obj o, k => some (dictHasKey o k)
  | .arr xs, k => some (setHasStr xs k)
  | .str s, k => some (hasSubstrL k.toList s.toList)
  | _, _ => none

/-- bridge.py: the shown_session half of NotificationFilter.evaluate's
learning branch, acting on the learning dict; changed is the pending
mutation flag. Returns the decision and the learning dict afterwards. -/
def evalShown (learning : JObj) (changed : Bool) (app_key now : String) :
    Option (FilterDecision × JObj) :=
  let sd := setdefault learning "shown_session" (.obj [])
  match pyContains sd.1 app_key with
  | none => none
  | some true => some (⟨false, "learning_suppress", changed⟩, sd.2)
  | some false =>
    match sd.1 with
    | .obj s =>
      some (⟨true, "learning_allow", true⟩,
        dictSet sd.2 "shown_session" (.obj (dictSet s app_key (.str now))))
    | _ => none

/-- bridge.py: the pending half of NotificationFilter.evaluate's learning
branch, acting on the learning dict. -/
def evalPending (learning : JObj) (app_key display_name now : String) :
    Option (FilterDecision × JObj) :=
  let sd := setdefault learning "pending" (.obj [])
  match pyContains sd.1 app_key with
  | none => none
  | some true => evalShown sd.2 false app_key now
  | some false =>
    match sd.1 with
    | .obj p =>
      evalShown (dictSet sd.2 "pending"
        (.obj (dictSet p app_key (.str (if display_name = "" then app_key else display_name)))))
        true app_key now
    | _ => none

/-- bridge.py: NotificationFilter(config).evaluate(app_key, display_name),
with datetime.now().isoformat() passed as now. Returns the decision and the
config afterwards; the learning dict obtained by config.get aliases config's
entry exactly when the key is present, so mutations of the default fresh
dict are lost. none = an exception escapes (non-dict filters, a
set()-rejected allow/block value, a non-dict learning value reached by the
learning branch, or a pending/shown_session value rejecting membership or
assignment). -/
def evaluate (config : JObj) (app_key display_name now : String) :
    Option (FilterDecision × JObj) :=
  match (dictGet config "filters").getD (.obj []) with
  | .obj filters =>
    match toSet ((dictGet filters "allow").getD (.arr [])),
          toSet ((dictGet filters "block").getD (.arr [])) with
    | some allow_list, some block_list =>
      if setHasStr block_list app_key then some (⟨false, "blocked", false⟩, config)
      else if setHasStr allow_list app_key then some (⟨true, "allowed", false⟩, config)
      else
        match (dictGet config "learning").getD (.obj []) with
        | .obj learning =>
          if truthy ((dictGet learning "enabled").getD (.bool true)) then
            match evalPending learning app_key display_name now with
            | none => none
            | some (dec, learning2) =>
              some (dec, if (dictGet config "learning").isSome
                then dictSet config "learning" (.obj learning2) else config)
          else if !allow_list.isEmpty then some (⟨false, "not_in_allow", false⟩, config)
          else some (⟨true, "default_allow", false⟩, config)
        | _ => none
    | _, _ => none
  | _ => none

/-- Path lookup in a JSON value: follow a list of keys through nested
objects. Used to state which nested keys a document normalization
preserves. -/
def getPath : JVal → List String → Option JVal
  | v, [] => some v
  | .obj o, k :: rest =>
    match dictGet o k with
    | some v => getPath v rest
    | none => none
  | _, _ :: _ => none

lemma dictGet_dictSet_self (o : JObj) (k : String) (v : JVal) :
    dictGet (dictSet o k v) k = some v := by
  induction o with
  | nil => simp [dictSet, dictGet]
  | cons kv rest ih =>
    by_cases h : kv.1 = k
    · simp [dictSet, dictGet, h]
    · simpa [dictSet, dictGet, h] using ih

lemma dictGet_dictSet_ne (o : JObj) (k k' : String) (v : JVal) (h : k' ≠ k) :
    dictGet (dictSet o k v) k' = dictGet o k' := by
  induction o with
  | nil => simp [dictSet, dictGet, Ne.symm h]
  | cons kv rest ih =>
    obtain ⟨k0, v0⟩ := kv
    by_cases hk : k0 = k
    · subst hk
      simp [dictSet, dictGet, Ne.symm h]
    · simp [dictSet, hk, dictGet, ih]

lemma dictSet_dictSet_self (o : JObj) (k : String) (v w : JVal) :
    dictSet (dictSet o k v) k w = dictSet o k w := by
  induction o with
  | nil => simp [dictSet]
  | cons kv rest ih =>
    by_cases h : kv.1 = k
    · simp [dictSet, h]
    · simp [dictSet, h, ih]

lemma dictGet_dictPop (o : JObj) (k k' : String) :
    dictGet (dictPop o k) k' = if k' = k then none else dictGet o k' := by
  induction o with
  | nil => simp [dictPop, dictGet]
  | cons kv rest ih =>
    obtain ⟨k0, v0⟩ := kv
    by_cases h0 : k0 = k
    · subst h0
      have hdrop : dictPop ((k0, v0) :: rest) k0 = dictPop rest k0 := by
        simp [dictPop]
      rw [hdrop, ih]
      by_cases hk : k' = k0
      · simp [hk]
      · simp [hk, dictGet, Ne.symm hk]
    · have hkeep : dictPop ((k0, v0) :: rest) k = (k0, v0) :: dictPop rest k := by
        simp [dictPop, h0]
      rw [hkeep]
      by_cases hk : k0 = k'
      · subst hk
        simp [dictGet, h0]
      · simp [dictGet, hk, ih]

lemma dictGet_filter_isNone (d o : JObj) (k : String) :
    dictGet (o.filter fun kv => (dictGet d kv.1).isNone) k =
      if (dictGet d k).isNone then dictGet o k else none := by
  induction o with
  | nil => simp [dictGet]
  | cons kv rest ih =>
    obtain ⟨k', v⟩ := kv
    by_cases hk : k' = k
    · subst hk
      by_cases hp : (dictGet d k').isNone <;> simp [List.filter, hp, dictGet, ih]
    · by_cases hp : (dictGet d k').isNone <;> simp [List.filter, hp, dictGet, hk, ih]

lemma dictGet_append (a b : JObj) (k : String) :
    dictGet (a ++ b) k = match dictGet a k with
      | some v => some v
      | none => dictGet b k := by
  induction a with
  | nil => simp [dictGet]
  | cons kv rest ih =>
    by_cases h : kv.1 = k
    · simp [dictGet, h]
    · simp [dictGet, h, ih]

lemma dictGet_mergeFields (d x : JObj) (k : String) :
    dictGet (mergeFields d x) k =
      (dictGet d k).map (fun v =>
        match dictGet x k with
        | some dv => mergeVal v dv
        | none => v) := by
  induction d with
  | nil => simp [mergeFields, dictGet]
  | cons kv rest ih =>
    obtain ⟨k', v⟩ := kv
    by_cases h : k' = k
    · subst h; simp [mergeFields, dictGet]
    · simp [mergeFields, dictGet, h, ih]

/-- Lookup in a deep merge: the defaults key set rules, the loaded value
wins (recursively for dicts) when present, extra loaded keys pass through. -/
lemma dictGet_deep_merge (d x : JObj) (k : String) :
    dictGet (deep_merge d x) k =
      match dictGet d k, dictGet x k with
      | some v, some dv => some (mergeVal v dv)
      | some v, none => some v
      | none, o => o := by
  rw [deep_merge, dictGet_append, dictGet_mergeFields, dictGet_filter_isNone]
  cases hd : dictGet d k <;> cases hx : dictGet x k <;> simp [hd, hx]

/-- Claim C10: endpoint URLs already containing the client query parameter
are returned unchanged by _ensure_client_param; otherwise the client
parameter is appended with a question mark when the URL has no query
string, and with an ampersand when it has one. -/
theorem ensure_client_param_spec (url : String) :
    ((containsSub url "?client=" = true ∨ containsSub url "&client=" = true) →
        ensure_client_param url = url) ∧
    (containsSub url "?client=" = false → containsSub url "&client=" = false →
      containsSub url "?" = false →
        ensure_client_param url = url ++ "?client=" ++ APP_NAME) ∧
    (containsSub url "?client=" = false → containsSub url "&client=" = false →
      containsSub url "?" = true →
        ensure_client_param url = url ++ "&client=" ++ APP_NAME) := by
  refine ⟨fun h => ?_, fun h1 h2 h3 => ?_, fun h1 h2 h3 => ?_⟩
  · rcases h with h | h <;> simp [ensure_client_param, h]
  · simp [ensure_client_param, h1, h2, h3]
  · simp [ensure_client_param, h1, h2, h3]

/-- Witness for C10: a bare URL gains the question-mark form, via the
theorem at a concrete input. -/
theorem ensure_client_param_spec_witness :
    ensure_client_param "ws://127.0.0.1:42070/" = "ws://127.0.0.1:42070/" ++ "?client=" ++ APP_NAME :=
  (ensure_client_param_spec "ws://127.0.0.1:42070/").2.1 rfl rfl rfl

/-- Claim C3 as amended: for a config whose learning key holds a dict, when
last_reset differs from the session id, reset_learning_state empties
shown_session, leaves pending unchanged, sets last_reset to the session id,
touches no other top-level key, and returns true; the repeated call with
the same session id returns false and leaves the config unchanged. -/
theorem reset_learning_state_spec (config l : JObj) (sid : String)
    (hl : dictGet config "learning" = some (.obj l))
    (hdiff : eqStrOpt (dictGet l "last_reset") sid = false) :
    ∃ config2 l2,
      reset_learning_state config sid = some (config2, true) ∧
      dictGet config2 "learning" = some (.obj l2) ∧
      dictGet l2 "shown_session" = some (.obj []) ∧
      dictGet l2 "last_reset" = some (.str sid) ∧
      dictGet l2 "pending" = dictGet l "pending" ∧
      (∀ k, k ≠ "learning" → dictGet config2 k = dictGet config k) ∧
      reset_learning_state config2 sid = some (config2, false) := by
  refine ⟨dictSet config "learning"
      (.obj (dictSet (dictSet l "last_reset" (.str sid)) "shown_session" (.obj []))),
    dictSet (dictSet l "last_reset" (.str sid)) "shown_session" (.obj []),
    ?_, dictGet_dictSet_self .., dictGet_dictSet_self .., ?_, ?_, ?_, ?_⟩
  · simp [reset_learning_state, hl, hdiff]
  · rw [dictGet_dictSet_ne _ _ _ _ (by decide), dictGet_dictSet_self]
  · rw [dictGet_dictSet_ne _ _ _ _ (by decide), dictGet_dictSet_ne _ _ _ _ (by decide)]
  · intro k hk
    exact dictGet_dictSet_ne _ _ _ _ hk
  · have h2 : dictGet (dictSet (dictSet l "last_reset" (.str sid))
        "shown_session" (.obj [])) "last_reset" = some (.str sid) := by
      rw [dictGet_dictSet_ne _ _ _ _ (by decide), dictGet_dictSet_self]
    simp [reset_learning_state, dictGet_dictSet_self, h2, eqStrOpt]

/-- Witness for C3: after a first reset on a concrete config, the repeated
call with the same session id is a no-op returning false, via the theorem. -/
theorem reset_learning_state_spec_witness :
    reset_learning_state [("learning", .obj [("last_reset", .str "s"), ("shown_session", .obj [])])] "s"
      = some ([("learning", .obj [("last_reset", .str "s"), ("shown_session", .obj [])])], false) := by
  obtain ⟨c2, l2, h1, _, _, _, _, _, h7⟩ :=
    reset_learning_state_spec [("learning", .obj [])] [] "s" rfl rfl
  have hc : reset_learning_state [("learning", .obj [])] "s"
      = some (([("learning", .obj [("last_reset", .str "s"), ("shown_session", .obj [])])] : JObj), true) := rfl
  rw [hc] at h1
  simp only [Option.some.injEq, Prod.mk.injEq] at h1
  rw [← h1.1] at h7
  exact h7

/-- Counterexample for C3: on a config with no learning entry the mutations
land on a fresh default dict and are lost, so the call reports a change but
leaves the config unchanged and does not record the session id; the
repeated call is therefore the very same call and returns true again, not
false as the claim requires. -/
theorem reset_learning_state_cex :
    reset_learning_state [] "s" = some ([], true) ∧
      some (([] : JObj), true) ≠ some (([] : JObj), false) :=
  ⟨rfl, by simp⟩

lemma evalPending_present (learning p : JObj) (k d n : String)
    (hp : dictGet learning "pending" = some (.obj p)) (hk : dictHasKey p k = true) :
    evalPending learning k d n = evalShown learning false k n := by
  simp [evalPending, setdefault, hp, pyContains, hk]

lemma evalPending_insert (learning p : JObj) (k d n : String)
    (hp : dictGet learning "pending" = some (.obj p)) (hk : dictHasKey p k = false) :
    evalPending learning k d n =
      evalShown (dictSet learning "pending"
        (.obj (dictSet p k (.str (if d = "" then k else d))))) true k n := by
  simp [evalPending, setdefault, hp, pyContains, hk]

lemma evalPending_missing (learning : JObj) (k d n : String)
    (hp : dictGet learning "pending" = none) :
    evalPending learning k d n =
      evalShown (dictSet learning "pending"
        (.obj [(k, .str (if d = "" then k else d))])) true k n := by
  simp [evalPending, setdefault, hp, pyContains, dictHasKey, dictGet, dictSet_dictSet_self, dictSet]

lemma evalShown_present_hit (learning s : JObj) (changed : Bool) (k n : String)
    (hs : dictGet learning "shown_session" = some (.obj s)) (hk : dictHasKey s k = true) :
    evalShown learning changed k n = some (⟨false, "learning_suppress", changed⟩, learning) := by
  simp [evalShown, setdefault, hs, pyContains, hk]

lemma evalShown_present_miss (learning s : JObj) (changed : Bool) (k n : String)
    (hs : dictGet learning "shown_session" = some (.obj s)) (hk : dictHasKey s k = false) :
    evalShown learning changed k n =
      some (⟨true, "learning_allow", true⟩,
        dictSet learning "shown_session" (.obj (dictSet s k (.str n)))) := by
  simp [evalShown, setdefault, hs, pyContains, hk]

lemma evalShown_missing (learning : JObj) (changed : Bool) (k n : String)
    (hs : dictGet learning "shown_session" = none) :
    evalShown learning changed k n =
      some (⟨true, "learning_allow", true⟩,
        dictSet learning "shown_session" (.obj [(k, .str n)])) := by
  simp [evalShown, setdefault, hs, pyContains, dictHasKey, dictGet, dictSet_dictSet_self, dictSet]

lemma evaluate_learning_branch (config filters : JObj) (allow_list block_list : List JVal)
    (learning : JObj) (k d n : String)
    (hf : (dictGet config "filters").getD (.obj []) = .obj filters)
    (ha : toSet ((dictGet filters "allow").getD (.arr [])) = some allow_list)
    (hb : toSet ((dictGet filters "block").getD (.arr [])) = some block_list)
    (hblk : setHasStr block_list k = false)
    (halw : setHasStr allow_list k = false)
    (hlrn : dictGet config "learning" = some (.obj learning))
    (hen : truthy ((dictGet learning "enabled").getD (.bool true)) = true) :
    evaluate config k d n =
      match evalPending learning k d n with
      | none => none
      | some (dec, learning2) => some (dec, dictSet config "learning" (.obj learning2)) := by
  simp [evaluate, hf, ha, hb, hblk, halw, hlrn, hen]

lemma evaluate_suppress_stable (config2 filters learning2 p2 s2 : JObj)
    (allow_list block_list : List JVal) (k d n : String)
    (hf : (dictGet config2 "filters").getD (.obj []) = .obj filters)
    (ha : toSet ((dictGet filters "allow").getD (.arr [])) = some allow_list)
    (hb : toSet ((dictGet filters "block").getD (.arr [])) = some block_list)
    (hblk : setHasStr block_list k = false)
    (halw : setHasStr allow_list k = false)
    (hlrn : dictGet config2 "learning" = some (.obj learning2))
    (hset : dictSet config2 "learning" (.obj learning2) = config2)
    (hen : truthy ((dictGet learning2 "enabled").getD (.bool true)) = true)
    (hp : dictGet learning2 "pending" = some (.obj p2)) (hpk : dictHasKey p2 k = true)
    (hs : dictGet learning2 "shown_session" = some (.obj s2)) (hsk : dictHasKey s2 k = true) :
    evaluate config2 k d n = some (⟨false, "learning_suppress", false⟩, config2) := by
  rw [evaluate_learning_branch config2 filters allow_list block_list learning2 k d n
    hf ha hb hblk halw hlrn hen]
  rw [evalPending_present _ _ _ _ _ hp hpk, evalShown_present_hit _ _ _ _ _ hs hsk]
  simp [hset]

/-- Claim C2 as amended: whenever the filters entry (defaulting to an empty
dict) is a dict whose allow and block values can be turned into Python sets,
a key contained in the block set makes evaluate return (allow=false,
reason=blocked, config_mutated=false) with the config unchanged, even when
the key is also in the allow set and regardless of the learning state. -/
theorem evaluate_blocked_spec (config filters : JObj) (allow_list block_list : List JVal)
    (app_key display_name now : String)
    (hf : (dictGet config "filters").getD (.obj []) = .obj filters)
    (ha : toSet ((dictGet filters "allow").getD (.arr [])) = some allow_list)
    (hb : toSet ((dictGet filters "block").getD (.arr [])) = some block_list)
    (hblk : setHasStr block_list app_key = true) :
    evaluate config app_key display_name now = some (⟨false, "blocked", false⟩, config) := by
  simp [evaluate, hf, ha, hb, hblk]

/-- Witness for C2: a key in both allow and block is blocked, via the
theorem at a concrete config. -/
theorem evaluate_blocked_spec_witness :
    evaluate [("filters", .obj [("allow", .arr [.str "k"]), ("block", .arr [.str "k"])])] "k" "d" "t"
      = some (⟨false, "blocked", false⟩,
          [("filters", .obj [("allow", .arr [.str "k"]), ("block", .arr [.str "k"])])]) :=
  evaluate_blocked_spec
    [("filters", .obj [("allow", .arr [.str "k"]), ("block", .arr [.str "k"])])]
    [("allow", .arr [.str "k"]), ("block", .arr [.str "k"])]
    [.str "k"] [.str "k"] "k" "d" "t" rfl rfl rfl rfl

/-- Counterexample for C2: an unhashable element (a list) in filters.allow
makes set(...) raise TypeError inside NotificationFilter.__init__, so
evaluate raises instead of returning the blocked decision even though the
key is in filters.block. -/
theorem evaluate_blocked_cex :
    evaluate [("filters", .obj [("allow", .arr [.arr []]), ("block", .arr [.str "k"])])]
      "k" "d" "t" = none := rfl

/-- Claim C1 as amended: for a config whose filters entry admits allow/block
sets not containing the key, whose learning entry is present as a dict with
enabled truthy (or absent, defaulting to true), whose pending value is
absent or a dict, and whose shown_session value is absent or a dict not
containing the key, the first evaluate call returns (allow=true,
reason=learning_allow, config_mutated=true), and every evaluate call for
the same key against the resulting config returns (allow=false,
reason=learning_suppress, config_mutated=false) leaving that config
unchanged. -/
theorem evaluate_learning_once (config filters learning : JObj)
    (allow_list block_list : List JVal) (k d n : String)
    (hf : (dictGet config "filters").getD (.obj []) = .obj filters)
    (ha : toSet ((dictGet filters "allow").getD (.arr [])) = some allow_list)
    (hb : toSet ((dictGet filters "block").getD (.arr [])) = some block_list)
    (hblk : setHasStr block_list k = false)
    (halw : setHasStr allow_list k = false)
    (hlrn : dictGet config "learning" = some (.obj learning))
    (hen : truthy ((dictGet learning "enabled").getD (.bool true)) = true)
    (hpend : dictGet learning "pending" = none ∨
      ∃ p, dictGet learning "pending" = some (.obj p))
    (hshown : dictGet learning "shown_session" = none ∨
      ∃ s, dictGet learning "shown_session" = some (.obj s) ∧ dictHasKey s k = false) :
    ∃ learning2,
      evaluate config k d n
        = some (⟨true, "learning_allow", true⟩, dictSet config "learning" (.obj learning2)) ∧
      ∀ d2 n2, evaluate (dictSet config "learning" (.obj learning2)) k d2 n2
        = some (⟨false, "learning_suppress", false⟩, dictSet config "learning" (.obj learning2)) := by
  -- step one: the pending half leaves a learning dict whose pending holds the key
  obtain ⟨L1, changed, hev, hsh1, hen1, p2, hp2, hp2k⟩ :
      ∃ L1 changed,
        evalPending learning k d n = evalShown L1 changed k n ∧
        dictGet L1 "shown_session" = dictGet learning "shown_session" ∧
        dictGet L1 "enabled" = dictGet learning "enabled" ∧
        ∃ p2, dictGet L1 "pending" = some (.obj p2) ∧ dictHasKey p2 k = true := by
    rcases hpend with hp | ⟨p, hp⟩
    · refine ⟨dictSet learning "pending" (.obj [(k, .str (if d = "" then k else d))]), true,
        evalPending_missing learning k d n hp,
        dictGet_dictSet_ne _ _ _ _ (by decide), dictGet_dictSet_ne _ _ _ _ (by decide),
        [(k, .str (if d = "" then k else d))], dictGet_dictSet_self .., ?_⟩
      simp [dictHasKey, dictGet]
    · by_cases hk : dictHasKey p k
      · exact ⟨learning, false, evalPending_present learning p k d n hp hk, rfl, rfl,
          p, hp, hk⟩
      · refine ⟨dictSet learning "pending"
            (.obj (dictSet p k (.str (if d = "" then k else d)))), true,
          evalPending_insert learning p k d n hp (by simpa using hk),
          dictGet_dictSet_ne _ _ _ _ (by decide), dictGet_dictSet_ne _ _ _ _ (by decide),
          dictSet p k (.str (if d = "" then k else d)), dictGet_dictSet_self .., ?_⟩
        simp [dictHasKey, dictGet_dictSet_self]
  -- step two: the shown_session half grants the one-time allow
  obtain ⟨learning2, hev2, s2, hs2, hs2k⟩ :
      ∃ learning2,
        evalShown L1 changed k n = some (⟨true, "learning_allow", true⟩, learning2) ∧
        ∃ s2, dictGet learning2 "shown_session" = some (.obj s2) ∧ dictHasKey s2 k = true := by
    rcases hshown with hs | ⟨s, hs, hsk⟩
    · refine ⟨dictSet L1 "shown_session" (.obj [(k, .str n)]),
        evalShown_missing L1 changed k n (hsh1.trans hs),
        [(k, .str n)], dictGet_dictSet_self .., ?_⟩
      simp [dictHasKey, dictGet]
    · refine ⟨dictSet L1 "shown_session" (.obj (dictSet s k (.str n))),
        evalShown_present_miss L1 s changed k n (hsh1.trans hs) hsk,
        dictSet s k (.str n), dictGet_dictSet_self .., ?_⟩
      simp [dictHasKey, dictGet_dictSet_self]
  refine ⟨learning2, ?_, ?_⟩
  · rw [evaluate_learning_branch config filters allow_list block_list learning k d n
      hf ha hb hblk halw hlrn hen, hev, hev2]
  · intro d2 n2
    have hpend2 : dictGet learning2 "pending" = some (.obj p2) := by
      rcases hshown with hs | ⟨s, hs, hsk⟩
      · have : learning2 = dictSet L1 "shown_session" (.obj [(k, .str n)]) := by
          have h1 := evalShown_missing L1 changed k n (hsh1.trans hs)
          rw [h1] at hev2
          simpa using hev2.symm
        rw [this, dictGet_dictSet_ne _ _ _ _ (by decide)]
        exact hp2
      · have : learning2 = dictSet L1 "shown_session" (.obj (dictSet s k (.str n))) := by
          have h1 := evalShown_present_miss L1 s changed k n (hsh1.trans hs) hsk
          rw [h1] at hev2
          simpa using hev2.symm
        rw [this, dictGet_dictSet_ne _ _ _ _ (by decide)]
        exact hp2
    have hen2 : dictGet learning2 "enabled" = dictGet learning "enabled" := by
      rcases hshown with hs | ⟨s, hs, hsk⟩
      · have : learning2 = dictSet L1 "shown_session" (.obj [(k, .str n)]) := by
          have h1 := evalShown_missing L1 changed k n (hsh1.trans hs)
          rw [h1] at hev2
          simpa using hev2.symm
        rw [this, dictGet_dictSet_ne _ _ _ _ (by decide)]
        exact hen1
      · have : learning2 = dictSet L1 "shown_session" (.obj (dictSet s k (.str n))) := by
          have h1 := evalShown_present_miss L1 s changed k n (hsh1.trans hs) hsk
          rw [h1] at hev2
          simpa using hev2.symm
        rw [this, dictGet_dictSet_ne _ _ _ _ (by decide)]
        exact hen1
    exact evaluate_suppress_stable (dictSet config "learning" (.obj learning2))
      filters learning2 p2 s2 allow_list block_list k d2 n2
      (by rw [dictGet_dictSet_ne _ _ _ _ (by decide)]; exact hf)
      ha hb hblk halw (dictGet_dictSet_self ..) (dictSet_dictSet_self ..)
      (by rw [hen2]; exact hen) hpend2 hp2k hs2 hs2k

/-- Witness for C1: the resulting config of a first learning_allow call is
suppressed on the next call, via the theorem at a concrete config. -/
theorem evaluate_learning_once_witness :
    evaluate [("filters", .obj [("allow", .arr []), ("block", .arr [])]),
              ("learning", .obj [("enabled", .bool true),
                                 ("pending", .obj [("App", .str "Disp")]),
                                 ("shown_session", .obj [("App", .str "T1")])])]
        "App" "Disp2" "T2"
      = some (⟨false, "learning_suppress", false⟩,
          [("filters", .obj [("allow", .arr []), ("block", .arr [])]),
           ("learning", .obj [("enabled", .bool true),
                              ("pending", .obj [("App", .str "Disp")]),
                              ("shown_session", .obj [("App", .str "T1")])])]) := by
  obtain ⟨learning2, h1, h2⟩ :=
    evaluate_learning_once
      [("filters", .obj [("allow", .arr []), ("block", .arr [])]),
       ("learning", .obj [("enabled", .bool true)])]
      [("allow", .arr []), ("block", .arr [])] [("enabled", .bool true)]
      [] [] "App" "Disp" "T1" rfl rfl rfl rfl rfl rfl rfl (Or.inl rfl) (Or.inl rfl)
  have hc : evaluate [("filters", .obj [("allow", .arr []), ("block", .arr [])]),
       ("learning", .obj [("enabled", .bool true)])] "App" "Disp" "T1"
      = some (⟨true, "learning_allow", true⟩,
          [("filters", .obj [("allow", .arr []), ("block", .arr [])]),
           ("learning", .obj [("enabled", .bool true),
                              ("pending", .obj [("App", .str "Disp")]),
                              ("shown_session", .obj [("App", .str "T1")])])]) := rfl
  rw [hc] at h1
  simp only [Option.some.injEq, Prod.mk.injEq, true_and] at h1
  have h3 := h2 "Disp2" "T2"
  rw [← h1] at h3
  exact h3

/-- Counterexample for C1: a config satisfying the claim's hypotheses (the
key is in neither list and learning is enabled) whose shown_session already
records the key makes the first evaluate call return learning_suppress, not
learning_allow as the claim requires. -/
theorem evaluate_learning_once_cex :
    evaluate [("learning", .obj [("enabled", .bool true),
        ("pending", .obj [("k", .str "k")]),
        ("shown_session", .obj [("k", .str "t")])])] "k" "" "n"
      = some (⟨false, "learning_suppress", false⟩,
          [("learning", .obj [("enabled", .bool true),
            ("pending", .obj [("k", .str "k")]),
            ("shown_session", .obj [("k", .str "t")])])]) := rfl

/-- Claim C4: phase one of _prune_seen removes exactly the entries strictly
older than max_age relative to now; when more than max_size fresh entries
remain, the oldest excess entries are evicted by timestamp until exactly
max_size remain; a cache within both limits is returned unchanged. Keys are
assumed distinct, as they are in a Python dict. -/
theorem prune_seen_spec (seen : List (String × Int)) (now max_age : Int) (max_size : Nat)
    (hnd : (seen.map Prod.fst).Nodup) :
    List.Sublist (prune_seen seen now max_age max_size) seen ∧
    (∀ kv ∈ prune_seen seen now max_age max_size, now - kv.2 ≤ max_age) ∧
    ((seen.filter fun kv => !(decide (now - kv.2 > max_age))).length ≤ max_size →
      prune_seen seen now max_age max_size
        = seen.filter fun kv => !(decide (now - kv.2 > max_age))) ∧
    ((seen.filter fun kv => !(decide (now - kv.2 > max_age))).length > max_size →
      (prune_seen seen now max_age max_size).length = max_size ∧
      ∀ kv ∈ seen.filter fun kv => !(decide (now - kv.2 > max_age)),
        kv ∉ prune_seen seen now max_age max_size →
        ∀ kw ∈ prune_seen seen now max_age max_size, kv.2 ≤ kw.2) ∧
    ((∀ kv ∈ seen, now - kv.2 ≤ max_age) → seen.length ≤ max_size →
      prune_seen seen now max_age max_size = seen) := by
  classical
  set fresh := seen.filter fun kv => !(decide (now - kv.2 > max_age)) with hfresh
  have hfreshsub : List.Sublist fresh seen := List.filter_sublist seen
  have hfreshmem : ∀ kv ∈ fresh, now - kv.2 ≤ max_age := by
    intro kv hkv
    have := (List.mem_filter.mp hkv).2
    simpa using this
  by_cases hgt : fresh.length > max_size
  · -- cap branch
    have hdef : prune_seen seen now max_age max_size
        = fresh.filter fun kv =>
            !((((fresh.mergeSort fun a b => decide (a.2 ≤ b.2)).take
              (fresh.length - max_size)).map Prod.fst).contains kv.1) := by
      rw [prune_seen, ← hfresh, if_pos hgt]
    set le : (String × Int) → (String × Int) → Bool := fun a b => decide (a.2 ≤ b.2) with hle
    set s := fresh.mergeSort le with hs
    set n := fresh.length - max_size with hn
    set p : (String × Int) → Bool := fun kv => !(((s.take n).map Prod.fst).contains kv.1) with hp
    set res := fresh.filter p with hres
    have hdef2 : prune_seen seen now max_age max_size = res := hdef
    have hperm : s.Perm fresh := List.mergeSort_perm fresh le
    have hsort : List.Pairwise (fun a b => le a b = true) s :=
      List.sorted_mergeSort
        (fun a b c hab hbc => by
          simp only [hle, decide_eq_true_eq] at hab hbc ⊢
          omega)
        (fun a b => by
          simp only [hle, Bool.or_eq_true, decide_eq_true_eq]
          omega)
        fresh
    have hfmnd : (fresh.map Prod.fst).Nodup := (hfreshsub.map Prod.fst).nodup hnd
    have hsnd : (s.map Prod.fst).Nodup := ((hperm.map Prod.fst).nodup_iff).mpr hfmnd
    have hsplit : s.take n ++ s.drop n = s := List.take_append_drop n s
    have hdisj : ∀ a ∈ s.take n, ∀ b ∈ s.drop n, a.1 ≠ b.1 := by
      have h0 := hsnd
      rw [← hsplit, List.map_append, List.nodup_append] at h0
      intro a ha b hb
      exact fun h => h0.2.2 (List.mem_map_of_mem Prod.fst ha)
        (h ▸ List.mem_map_of_mem Prod.fst hb)
    have hpdrop : ∀ kv ∈ s.drop n, p kv = true := by
      intro kv hkv
      rw [hp]
      simp only [Bool.not_eq_true']
      rw [← Bool.not_eq_true, List.elem_iff]
      intro hcon
      obtain ⟨a, ha, hak⟩ := List.mem_map.mp hcon
      exact hdisj a ha kv hkv (by rw [hak])
    have hptake : ∀ kv ∈ s.take n, p kv = false := by
      intro kv hkv
      rw [hp]
      simp only [Bool.not_eq_false']
      rw [List.elem_iff]
      exact List.mem_map_of_mem Prod.fst hkv
    have hresperm : res.Perm (s.drop n) := by
      have h1 : res.Perm (s.filter p) := (hperm.filter p).symm
      have h3 : (s.take n ++ s.drop n).filter p = s.drop n := by
        rw [List.filter_append]
        have ht : (s.take n).filter p = [] := by
          rw [List.filter_eq_nil_iff]
          intro a ha
          simp [hptake a ha]
        have hd : (s.drop n).filter p = s.drop n := by
          rw [List.filter_eq_self]
          intro a ha
          exact hpdrop a ha
        rw [ht, hd, List.nil_append]
      have h2 : s.filter p = s.drop n := by
        conv_lhs => rw [← hsplit]
        exact h3
      rw [← h2]
      exact h1
    have hreslen : res.length = max_size := by
      have h1 : res.length = (s.drop n).length := hresperm.length_eq
      have h2 : s.length = fresh.length := hperm.length_eq
      rw [h1, List.length_drop, h2, hn]
      omega
    have hressub : List.Sublist res fresh := List.filter_sublist fresh
    refine ⟨?_, ?_, ?_, ?_, ?_⟩
    · rw [hdef2]; exact hressub.trans hfreshsub
    · intro kv hkv
      rw [hdef2] at hkv
      exact hfreshmem kv (hressub.subset hkv)
    · intro hle2; omega
    · intro _
      refine ⟨by rw [hdef2]; exact hreslen, ?_⟩
      intro kv hkvf hkvres kw hkwres
      rw [hdef2] at hkvres hkwres
      have hkvs : kv ∈ s := (hperm.mem_iff).mpr hkvf
      rw [← hsplit] at hkvs
      have hkvtake : kv ∈ s.take n := by
        rcases List.mem_append.mp hkvs with h | h
        · exact h
        · exact absurd (List.mem_filter.mpr ⟨hkvf, hpdrop kv h⟩) hkvres
      have hkwdrop : kw ∈ s.drop n := (hresperm.mem_iff).mp hkwres
      have hq : le kv kw = true := by
        have h0 := hsort
        rw [← hsplit, List.pairwise_append] at h0
        exact h0.2.2 kv hkvtake kw hkwdrop
      simpa [hle] using hq
    · intro hall hlen
      have hfs : fresh = seen := by
        rw [hfresh, List.filter_eq_self]
        intro a ha
        simp [hall a ha]
      have hfl : fresh.length = seen.length := by rw [hfs]
      omega
  · -- within the cap: the age filter is the result
    have hdef : prune_seen seen now max_age max_size = fresh := by
      rw [prune_seen, ← hfresh, if_neg hgt]
    refine ⟨?_, ?_, fun _ => hdef, fun h => absurd h hgt, ?_⟩
    · rw [hdef]; exact hfreshsub
    · intro kv hkv; rw [hdef] at hkv; exact hfreshmem kv hkv
    · intro hall _
      rw [hdef, hfresh, List.filter_eq_self]
      intro a ha
      simp [hall a ha]

/-- Witness for C4: with the default limits (max_age 86400, max_size 2000)
the entry older than a day is removed and the fresh one kept, via the
theorem at a concrete cache. -/
theorem prune_seen_spec_witness :
    prune_seen [("a", 0), ("b", 90)] 86450 86400 2000 = [("b", 90)] := by
  have h := (prune_seen_spec [("a", 0), ("b", 90)] 86450 86400 2000 (by decide)).2.2.1
    (by decide)
  simpa using h

/-- Claim C5 evaluated on the code: with a corrupt primary and no backup,
load_config returns the fallback when one is supplied and the defaults
otherwise, but the disk is unchanged: the corrupt primary stays in place
and no quarantine rename happens, although the repo's tests
(test_load_config_renames_corrupt_and_uses_fallback,
test_load_config_non_dict_json_renames_and_defaults,
test_load_config_corrupt_rename_failure) require a rename to a .corrupt
sibling and a config_corrupt_rename_failed event on rename failure. -/
theorem load_config_no_rename_eval :
    load_config ⟨some .corrupt, none⟩ true none
        = some (default_config, ⟨some .corrupt, none⟩) ∧
      load_config ⟨some .corrupt, none⟩ true (some [("x", .null)])
        = some ([("x", .null)], ⟨some .corrupt, none⟩) := ⟨rfl, rfl⟩

/-- Claim C6 as amended: with an unreadable primary and a backup parsing to
an object that normalize_config accepts, load_config returns the NORMALIZED
backup content and (the atomic rewrite succeeding) the primary afterwards
parses exactly to that normalized content, i.e. to load_config's own return
value. -/
theorem load_config_backup_restore (pc : FileContent) (bdata nb : JObj) (fallback : Option JObj)
    (hp : read_json pc = none)
    (hn : normalize_config bdata = some nb) :
    load_config ⟨some pc, some (.jval (.obj bdata))⟩ true fallback
      = some (nb, ⟨some (.jval (.obj nb)), some (.jval (.obj bdata))⟩) := by
  simp only [load_config]
  rw [hp]
  simp [read_json, hn]

/-- Witness for C6: restoring from a backup holding the default config, via
the theorem at a concrete disk. -/
theorem load_config_backup_restore_witness :
    load_config ⟨some .corrupt, some (.jval (.obj default_config))⟩ true none
      = some (default_config,
          ⟨some (.jval (.obj default_config)), some (.jval (.obj default_config))⟩) :=
  load_config_backup_restore .corrupt default_config default_config none rfl rfl

/-- Counterexample for C6: an empty-object backup is restored as the fully
normalized config (defaults filled in), so neither load_config's return
value nor the rewritten primary parses identically to the backup itself. -/
theorem load_config_backup_cex :
    load_config ⟨some .corrupt, some (.jval (.obj []))⟩ true none
        = some (default_config,
            ⟨some (.jval (.obj default_config)), some (.jval (.obj []))⟩) ∧
      default_config ≠ ([] : JObj) := ⟨rfl, by simp [default_config]⟩

/-- Claim C7 evaluated on the code: save_config emits a config_save_failed
event on every failing call, with no throttling state, so two failing
saves at the same instant emit two events; the repo's test
test_save_config_throttles_log instead requires module-level
_SAVE_FAIL_STATE throttling to one event per 30-second interval. The
failure itself is caught, not raised, and the config value is not
modified. -/
theorem save_config_no_throttle_eval :
    (save_config ⟨none, none⟩ default_config true false).2 = ["config_save_failed"] ∧
    (save_config (save_config ⟨none, none⟩ default_config true false).1
        default_config true false).2 = ["config_save_failed"] := ⟨rfl, rfl⟩

lemma coerceFilters_obj (F : JObj) :
    ∃ F2, coerceFilters (.obj F) = some F2 ∧
      (∃ a, dictGet F2 "allow" = some (.arr a)) ∧
      (∃ b, dictGet F2 "block" = some (.arr b)) ∧
      (∀ k, k ≠ "allow" → k ≠ "block" → dictGet F2 k = dictGet F k) ∧
      (dictGet F2 "allow" = match dictGet F "allow" with
        | some (.arr xs) => some (.arr xs)
        | _ => some (.arr [])) ∧
      (dictGet F2 "block" = match dictGet F "block" with
        | some (.arr xs) => some (.arr xs)
        | _ => some (.arr [])) := by
  have step1 : ∃ F1, (match dictGet F "allow" with
        | some (.arr _) => F
        | _ => dictSet F "allow" (.arr [])) = F1 ∧
      (∃ a, dictGet F1 "allow" = some (.arr a)) ∧
      (∀ k, k ≠ "allow" → dictGet F1 k = dictGet F k) := by
    cases ha : dictGet F "allow" with
    | none => exact ⟨dictSet F "allow" (.arr []), rfl, ⟨[], dictGet_dictSet_self ..⟩,
        fun k hk => dictGet_dictSet_ne _ _ _ _ hk⟩
    | some v =>
      cases v with
      | arr a => exact ⟨F, rfl, ⟨a, ha⟩, fun _ _ => rfl⟩
      | null => exact ⟨dictSet F "allow" (.arr []), rfl, ⟨[], dictGet_dictSet_self ..⟩,
          fun k hk => dictGet_dictSet_ne _ _ _ _ hk⟩
      | bool b => exact ⟨dictSet F "allow" (.arr []), rfl, ⟨[], dictGet_dictSet_self ..⟩,
          fun k hk => dictGet_dictSet_ne _ _ _ _ hk⟩
      | num q => exact ⟨dictSet F "allow" (.arr []), rfl, ⟨[], dictGet_dictSet_self ..⟩,
          fun k hk => dictGet_dictSet_ne _ _ _ _ hk⟩
      | str s => exact ⟨dictSet F "allow" (.arr []), rfl, ⟨[], dictGet_dictSet_self ..⟩,
          fun k hk => dictGet_dictSet_ne _ _ _ _ hk⟩
      | obj o => exact ⟨dictSet F "allow" (.arr []), rfl, ⟨[], dictGet_dictSet_self ..⟩,
          fun k hk => dictGet_dictSet_ne _ _ _ _ hk⟩
  obtain ⟨F1, hF1, ⟨a1, ha1⟩, hF1k⟩ := step1
  have step2 : ∃ F2, (match dictGet F1 "block" with
        | some (.arr _) => F1
        | _ => dictSet F1 "block" (.arr [])) = F2 ∧
      (∃ b, dictGet F2 "block" = some (.arr b)) ∧
      (∀ k, k ≠ "block" → dictGet F2 k = dictGet F1 k) := by
    cases hb : dictGet F1 "block" with
    | none => exact ⟨dictSet F1 "block" (.arr []), rfl, ⟨[], dictGet_dictSet_self ..⟩,
        fun k hk => dictGet_dictSet_ne _ _ _ _ hk⟩
    | some v =>
      cases v with
      | arr b => exact ⟨F1, rfl, ⟨b, hb⟩, fun _ _ => rfl⟩
      | null => exact ⟨dictSet F1 "block" (.arr []), rfl, ⟨[], dictGet_dictSet_self ..⟩,
          fun k hk => dictGet_dictSet_ne _ _ _ _ hk⟩
      | bool b => exact ⟨dictSet F1 "block" (.arr []), rfl, ⟨[], dictGet_dictSet_self ..⟩,
          fun k hk => dictGet_dictSet_ne _ _ _ _ hk⟩
      | num q => exact ⟨dictSet F1 "block" (.arr []), rfl, ⟨[], dictGet_dictSet_self ..⟩,
          fun k hk => dictGet_dictSet_ne _ _ _ _ hk⟩
      | str s => exact ⟨dictSet F1 "block" (.arr []), rfl, ⟨[], dictGet_dictSet_self ..⟩,
          fun k hk => dictGet_dictSet_ne _ _ _ _ hk⟩
      | obj o => exact ⟨dictSet F1 "block" (.arr []), rfl, ⟨[], dictGet_dictSet_self ..⟩,
          fun k hk => dictGet_dictSet_ne _ _ _ _ hk⟩
  obtain ⟨F2, hF2, ⟨b2, hb2⟩, hF2k⟩ := step2
  have hFmA : dictGet F2 "allow" = (match dictGet F "allow" with
      | some (.arr xs) => some (.arr xs)
      | _ => some (.arr [])) := by
    rw [hF2k "allow" (by decide)]
    cases hax : dictGet F "allow" with
    | none => rw [hax] at hF1; simp only [] at hF1; rw [← hF1, dictGet_dictSet_self]
    | some v =>
      cases v with
      | arr xs => rw [hax] at hF1; simp only [] at hF1; rw [← hF1, hax]
      | null => rw [hax] at hF1; simp only [] at hF1; rw [← hF1, dictGet_dictSet_self]
      | bool b => rw [hax] at hF1; simp only [] at hF1; rw [← hF1, dictGet_dictSet_self]
      | num q => rw [hax] at hF1; simp only [] at hF1; rw [← hF1, dictGet_dictSet_self]
      | str s => rw [hax] at hF1; simp only [] at hF1; rw [← hF1, dictGet_dictSet_self]
      | obj o => rw [hax] at hF1; simp only [] at hF1; rw [← hF1, dictGet_dictSet_self]
  have hFmB : dictGet F2 "block" = (match dictGet F "block" with
      | some (.arr xs) => some (.arr xs)
      | _ => some (.arr [])) := by
    have e1 : dictGet F1 "block" = dictGet F "block" := hF1k "block" (by decide)
    rw [e1] at hF2
    cases hbx : dictGet F "block" with
    | none => rw [hbx] at hF2; simp only [] at hF2; rw [← hF2, dictGet_dictSet_self]
    | some v =>
      cases v with
      | arr xs => rw [hbx] at hF2; simp only [] at hF2; rw [← hF2, e1, hbx]
      | null => rw [hbx] at hF2; simp only [] at hF2; rw [← hF2, dictGet_dictSet_self]
      | bool b => rw [hbx] at hF2; simp only [] at hF2; rw [← hF2, dictGet_dictSet_self]
      | num q => rw [hbx] at hF2; simp only [] at hF2; rw [← hF2, dictGet_dictSet_self]
      | str s => rw [hbx] at hF2; simp only [] at hF2; rw [← hF2, dictGet_dictSet_self]
      | obj o => rw [hbx] at hF2; simp only [] at hF2; rw [← hF2, dictGet_dictSet_self]
  refine ⟨F2, ?_, ⟨a1, ?_⟩, ⟨b2, hb2⟩, ?_, hFmA, hFmB⟩
  · rw [coerceFilters, hF1, hF2]
  · rw [hF2k "allow" (by decide), ha1]
  · intro k hka hkb
    rw [hF2k k hkb, hF1k k hka]

lemma coerceLearning_obj (L : JObj) :
    ∃ L2, coerceLearning (.obj L) = some L2 ∧
      (∃ pd, dictGet L2 "pending" = some (.obj pd)) ∧
      (∃ ss, dictGet L2 "shown_session" = some (.obj ss)) ∧
      dictGet L2 "shown_today" = none ∧
      (∀ k, k ≠ "pending" → k ≠ "shown_session" → k ≠ "shown_today" →
        dictGet L2 k = dictGet L k) ∧
      (dictGet L2 "pending" = match dictGet L "pending" with
        | some (.obj po) => some (.obj po)
        | _ => some (.obj [])) ∧
      (∀ so, dictGet L "shown_session" = some (.obj so) →
        dictGet L2 "shown_session" = some (.obj so)) ∧
      (dictGet L2 "shown_session" = match dictGet L "shown_session" with
        | some (.obj so) => some (.obj so)
        | _ => match dictGet L "shown_today" with
               | some (.obj legacy) => some (.obj legacy)
               | _ => some (.obj [])) := by
  have step1 : ∃ L1, (match dictGet L "pending" with
        | some (.obj _) => L
        | _ => dictSet L "pending" (.obj [])) = L1 ∧
      (∃ pd, dictGet L1 "pending" = some (.obj pd)) ∧
      (∀ k, k ≠ "pending" → dictGet L1 k = dictGet L k) := by
    cases hp : dictGet L "pending" with
    | none => exact ⟨dictSet L "pending" (.obj []), rfl, ⟨[], dictGet_dictSet_self ..⟩,
        fun k hk => dictGet_dictSet_ne _ _ _ _ hk⟩
    | some v =>
      cases v with
      | obj o => exact ⟨L, rfl, ⟨o, hp⟩, fun _ _ => rfl⟩
      | null => exact ⟨dictSet L "pending" (.obj []), rfl, ⟨[], dictGet_dictSet_self ..⟩,
          fun k hk => dictGet_dictSet_ne _ _ _ _ hk⟩
      | bool b => exact ⟨dictSet L "pending" (.obj []), rfl, ⟨[], dictGet_dictSet_self ..⟩,
          fun k hk => dictGet_dictSet_ne _ _ _ _ hk⟩
      | num q => exact ⟨dictSet L "pending" (.obj []), rfl, ⟨[], dictGet_dictSet_self ..⟩,
          fun k hk => dictGet_dictSet_ne _ _ _ _ hk⟩
      | str s => exact ⟨dictSet L "pending" (.obj []), rfl, ⟨[], dictGet_dictSet_self ..⟩,
          fun k hk => dictGet_dictSet_ne _ _ _ _ hk⟩
      | arr x => exact ⟨dictSet L "pending" (.obj []), rfl, ⟨[], dictGet_dictSet_self ..⟩,
          fun k hk => dictGet_dictSet_ne _ _ _ _ hk⟩
  obtain ⟨L1, hL1, ⟨pd1, hpd1⟩, hL1k⟩ := step1
  have step2 : ∃ L2', (match dictGet L1 "shown_session" with
        | some (.obj _) => L1
        | _ => match dictGet L1 "shown_today" with
               | some (.obj legacy) => dictSet L1 "shown_session" (.obj legacy)
               | _ => dictSet L1 "shown_session" (.obj [])) = L2' ∧
      (∃ ss, dictGet L2' "shown_session" = some (.obj ss)) ∧
      (∀ k, k ≠ "shown_session" → dictGet L2' k = dictGet L1 k) := by
    cases hs : dictGet L1 "shown_session" with
    | some v =>
      cases v with
      | obj o => exact ⟨L1, rfl, ⟨o, hs⟩, fun _ _ => rfl⟩
      | null =>
        cases ht : dictGet L1 "shown_today" with
        | some w =>
          cases w with
          | obj legacy => exact ⟨dictSet L1 "shown_session" (.obj legacy), rfl,
              ⟨legacy, dictGet_dictSet_self ..⟩, fun k hk => dictGet_dictSet_ne _ _ _ _ hk⟩
          | null => exact ⟨dictSet L1 "shown_session" (.obj []), rfl,
              ⟨[], dictGet_dictSet_self ..⟩, fun k hk => dictGet_dictSet_ne _ _ _ _ hk⟩
          | bool b => exact ⟨dictSet L1 "shown_session" (.obj []), rfl,
              ⟨[], dictGet_dictSet_self ..⟩, fun k hk => dictGet_dictSet_ne _ _ _ _ hk⟩
          | num q => exact ⟨dictSet L1 "shown_session" (.obj []), rfl,
              ⟨[], dictGet_dictSet_self ..⟩, fun k hk => dictGet_dictSet_ne _ _ _ _ hk⟩
          | str s2 => exact ⟨dictSet L1 "shown_session" (.obj []), rfl,
              ⟨[], dictGet_dictSet_self ..⟩, fun k hk => dictGet_dictSet_ne _ _ _ _ hk⟩
          | arr x => exact ⟨dictSet L1 "shown_session" (.obj []), rfl,
              ⟨[], dictGet_dictSet_self ..⟩, fun k hk => dictGet_dictSet_ne _ _ _ _ hk⟩
        | none => exact ⟨dictSet L1 "shown_session" (.obj []), rfl,
            ⟨[], dictGet_dictSet_self ..⟩, fun k hk => dictGet_dictSet_ne _ _ _ _ hk⟩
      | bool b =>
        cases ht : dictGet L1 "shown_today" with
        | some w =>
          cases w with
          | obj legacy => exact ⟨dictSet L1 "shown_session" (.obj legacy), rfl,
              ⟨legacy, dictGet_dictSet_self ..⟩, fun k hk => dictGet_dictSet_ne _ _ _ _ hk⟩
          | null => exact ⟨dictSet L1 "shown_session" (.obj []), rfl,
              ⟨[], dictGet_dictSet_self ..⟩, fun k hk => dictGet_dictSet_ne _ _ _ _ hk⟩
          | bool b2 => exact ⟨dictSet L1 "shown_session" (.obj []), rfl,
              ⟨[], dictGet_dictSet_self ..⟩, fun k hk => dictGet_dictSet_ne _ _ _ _ hk⟩
          | num q => exact ⟨dictSet L1 "shown_session" (.obj []), rfl,
              ⟨[], dictGet_dictSet_self ..⟩, fun k hk => dictGet_dictSet_ne _ _ _ _ hk⟩
          | str s2 => exact ⟨dictSet L1 "shown_session" (.obj []), rfl,
              ⟨[], dictGet_dictSet_self ..⟩, fun k hk => dictGet_dictSet_ne _ _ _ _ hk⟩
          | arr x => exact ⟨dictSet L1 "shown_session" (.obj []), rfl,
              ⟨[], dictGet_dictSet_self ..⟩, fun k hk => dictGet_dictSet_ne _ _ _ _ hk⟩
        | none => exact ⟨dictSet L1 "shown_session" (.obj []), rfl,
            ⟨[], dictGet_dictSet_self ..⟩, fun k hk => dictGet_dictSet_ne _ _ _ _ hk⟩
      | num q =>
        cases ht : dictGet L1 "shown_today" with
        | some w =>
          cases w with
          | obj legacy => exact ⟨dictSet L1 "shown_session" (.obj legacy), rfl,
              ⟨legacy, dictGet_dictSet_self ..⟩, fun k hk => dictGet_dictSet_ne _ _ _ _ hk⟩
          | null => exact ⟨dictSet L1 "shown_session" (.obj []), rfl,
              ⟨[], dictGet_dictSet_self ..⟩, fun k hk => dictGet_dictSet_ne _ _ _ _ hk⟩
          | bool b2 => exact ⟨dictSet L1 "shown_session" (.obj []), rfl,
              ⟨[], dictGet_dictSet_self ..⟩, fun k hk => dictGet_dictSet_ne _ _ _ _ hk⟩
          | num q2 => exact ⟨dictSet L1 "shown_session" (.obj []), rfl,
              ⟨[], dictGet_dictSet_self ..⟩, fun k hk => dictGet_dictSet_ne _ _ _ _ hk⟩
          | str s2 => exact ⟨dictSet L1 "shown_session" (.obj []), rfl,
              ⟨[], dictGet_dictSet_self ..⟩, fun k hk => dictGet_dictSet_ne _ _ _ _ hk⟩
          | arr x => exact ⟨dictSet L1 "shown_session" (.obj []), rfl,
              ⟨[], dictGet_dictSet_self ..⟩, fun k hk => dictGet_dictSet_ne _ _ _ _ hk⟩
        | none => exact ⟨dictSet L1 "shown_session" (.obj []), rfl,
            ⟨[], dictGet_dictSet_self ..⟩, fun k hk => dictGet_dictSet_ne _ _ _ _ hk⟩
      | str s2 =>
        cases ht : dictGet L1 "shown_today" with
        | some w =>
          cases w with
          | obj legacy => exact ⟨dictSet L1 "shown_session" (.obj legacy), rfl,
              ⟨legacy, dictGet_dictSet_self ..⟩, fun k hk => dictGet_dictSet_ne _ _ _ _ hk⟩
          | null => exact ⟨dictSet L1 "shown_session" (.obj []), rfl,
              ⟨[], dictGet_dictSet_self ..⟩, fun k hk => dictGet_dictSet_ne _ _ _ _ hk⟩
          | bool b2 => exact ⟨dictSet L1 "shown_session" (.obj []), rfl,
              ⟨[], dictGet_dictSet_self ..⟩, fun k hk => dictGet_dictSet_ne _ _ _ _ hk⟩
          | num q2 => exact ⟨dictSet L1 "shown_session" (.obj []), rfl,
              ⟨[], dictGet_dictSet_self ..⟩, fun k hk => dictGet_dictSet_ne _ _ _ _ hk⟩
          | str s3 => exact ⟨dictSet L1 "shown_session" (.obj []), rfl,
              ⟨[], dictGet_dictSet_self ..⟩, fun k hk => dictGet_dictSet_ne _ _ _ _ hk⟩
          | arr x => exact ⟨dictSet L1 "shown_session" (.obj []), rfl,
              ⟨[], dictGet_dictSet_self ..⟩, fun k hk => dictGet_dictSet_ne _ _ _ _ hk⟩
        | none => exact ⟨dictSet L1 "shown_session" (.obj []), rfl,
            ⟨[], dictGet_dictSet_self ..⟩, fun k hk => dictGet_dictSet_ne _ _ _ _ hk⟩
      | arr x =>
        cases ht : dictGet L1 "shown_today" with
        | some w =>
          cases w with
          | obj legacy => exact ⟨dictSet L1 "shown_session" (.obj legacy), rfl,
              ⟨legacy, dictGet_dictSet_self ..⟩, fun k hk => dictGet_dictSet_ne _ _ _ _ hk⟩
          | null => exact ⟨dictSet L1 "shown_session" (.obj []), rfl,
              ⟨[], dictGet_dictSet_self ..⟩, fun k hk => dictGet_dictSet_ne _ _ _ _ hk⟩
          | bool b2 => exact ⟨dictSet L1 "shown_session" (.obj []), rfl,
              ⟨[], dictGet_dictSet_self ..⟩, fun k hk => dictGet_dictSet_ne _ _ _ _ hk⟩
          | num q2 => exact ⟨dictSet L1 "shown_session" (.obj []), rfl,
              ⟨[], dictGet_dictSet_self ..⟩, fun k hk => dictGet_dictSet_ne _ _ _ _ hk⟩
          | str s3 => exact ⟨dictSet L1 "shown_session" (.obj []), rfl,
              ⟨[], dictGet_dictSet_self ..⟩, fun k hk => dictGet_dictSet_ne _ _ _ _ hk⟩
          | arr x2 => exact ⟨dictSet L1 "shown_session" (.obj []), rfl,
              ⟨[], dictGet_dictSet_self ..⟩, fun k hk => dictGet_dictSet_ne _ _ _ _ hk⟩
        | none => exact ⟨dictSet L1 "shown_session" (.obj []), rfl,
            ⟨[], dictGet_dictSet_self ..⟩, fun k hk => dictGet_dictSet_ne _ _ _ _ hk⟩
    | none =>
      cases ht : dictGet L1 "shown_today" with
      | some w =>
        cases w with
        | obj legacy => exact ⟨dictSet L1 "shown_session" (.obj legacy), rfl,
            ⟨legacy, dictGet_dictSet_self ..⟩, fun k hk => dictGet_dictSet_ne _ _ _ _ hk⟩
        | null => exact ⟨dictSet L1 "shown_session" (.obj []), rfl,
            ⟨[], dictGet_dictSet_self ..⟩, fun k hk => dictGet_dictSet_ne _ _ _ _ hk⟩
        | bool b2 => exact ⟨dictSet L1 "shown_session" (.obj []), rfl,
            ⟨[], dictGet_dictSet_self ..⟩, fun k hk => dictGet_dictSet_ne _ _ _ _ hk⟩
        | num q2 => exact ⟨dictSet L1 "shown_session" (.obj []), rfl,
            ⟨[], dictGet_dictSet_self ..⟩, fun k hk => dictGet_dictSet_ne _ _ _ _ hk⟩
        | str s3 => exact ⟨dictSet L1 "shown_session" (.obj []), rfl,
            ⟨[], dictGet_dictSet_self ..⟩, fun k hk => dictGet_dictSet_ne _ _ _ _ hk⟩
        | arr x2 => exact ⟨dictSet L1 "shown_session" (.obj []), rfl,
            ⟨[], dictGet_dictSet_self ..⟩, fun k hk => dictGet_dictSet_ne _ _ _ _ hk⟩
      | none => exact ⟨dictSet L1 "shown_session" (.obj []), rfl,
          ⟨[], dictGet_dictSet_self ..⟩, fun k hk => dictGet_dictSet_ne _ _ _ _ hk⟩
  obtain ⟨L2', hL2', ⟨ss2, hss2⟩, hL2'k⟩ := step2
  have hpd1_match : dictGet L1 "pending" = (match dictGet L "pending" with
      | some (.obj po) => some (.obj po)
      | _ => some (.obj [])) := by
    cases hp : dictGet L "pending" with
    | none =>
      rw [hp] at hL1
      simp only [] at hL1
      rw [← hL1, dictGet_dictSet_self]
    | some v =>
      cases v with
      | obj o =>
        rw [hp] at hL1
        simp only [] at hL1
        rw [← hL1, hp]
      | null => rw [hp] at hL1; simp only [] at hL1; rw [← hL1, dictGet_dictSet_self]
      | bool b => rw [hp] at hL1; simp only [] at hL1; rw [← hL1, dictGet_dictSet_self]
      | num q => rw [hp] at hL1; simp only [] at hL1; rw [← hL1, dictGet_dictSet_self]
      | str s => rw [hp] at hL1; simp only [] at hL1; rw [← hL1, dictGet_dictSet_self]
      | arr x => rw [hp] at hL1; simp only [] at hL1; rw [← hL1, dictGet_dictSet_self]
  have hss_keep : ∀ so, dictGet L1 "shown_session" = some (.obj so) →
      dictGet L2' "shown_session" = some (.obj so) := by
    intro so hso
    rw [hso] at hL2'
    simp only [] at hL2'
    rw [← hL2', hso]
  have hss_match : dictGet L2' "shown_session" = (match dictGet L "shown_session" with
      | some (.obj so) => some (.obj so)
      | _ => match dictGet L "shown_today" with
             | some (.obj legacy) => some (.obj legacy)
             | _ => some (.obj [])) := by
    have e1 : dictGet L1 "shown_session" = dictGet L "shown_session" :=
      hL1k "shown_session" (by decide)
    have e2 : dictGet L1 "shown_today" = dictGet L "shown_today" :=
      hL1k "shown_today" (by decide)
    rw [e1, e2] at hL2'
    cases hs : dictGet L "shown_session" with
    | none =>
      rw [hs] at hL2'
      simp only [] at hL2'
      cases ht : dictGet L "shown_today" with
      | none => rw [ht] at hL2'; simp only [] at hL2'; rw [← hL2', dictGet_dictSet_self]
      | some w =>
        cases w with
        | obj legacy => rw [ht] at hL2'; simp only [] at hL2'; rw [← hL2', dictGet_dictSet_self]
        | null => rw [ht] at hL2'; simp only [] at hL2'; rw [← hL2', dictGet_dictSet_self]
        | bool b => rw [ht] at hL2'; simp only [] at hL2'; rw [← hL2', dictGet_dictSet_self]
        | num q => rw [ht] at hL2'; simp only [] at hL2'; rw [← hL2', dictGet_dictSet_self]
        | str s3 => rw [ht] at hL2'; simp only [] at hL2'; rw [← hL2', dictGet_dictSet_self]
        | arr x => rw [ht] at hL2'; simp only [] at hL2'; rw [← hL2', dictGet_dictSet_self]
    | some v =>
      cases v with
      | obj o => rw [hs] at hL2'; simp only [] at hL2'; rw [← hL2', e1, hs]
      | null =>
        rw [hs] at hL2'
        simp only [] at hL2'
        cases ht : dictGet L "shown_today" with
        | none => rw [ht] at hL2'; simp only [] at hL2'; rw [← hL2', dictGet_dictSet_self]
        | some w =>
          cases w with
          | obj legacy => rw [ht] at hL2'; simp only [] at hL2'; rw [← hL2', dictGet_dictSet_self]
          | null => rw [ht] at hL2'; simp only [] at hL2'; rw [← hL2', dictGet_dictSet_self]
          | bool b => rw [ht] at hL2'; simp only [] at hL2'; rw [← hL2', dictGet_dictSet_self]
          | num q => rw [ht] at hL2'; simp only [] at hL2'; rw [← hL2', dictGet_dictSet_self]
          | str s3 => rw [ht] at hL2'; simp only [] at hL2'; rw [← hL2', dictGet_dictSet_self]
          | arr x => rw [ht] at hL2'; simp only [] at hL2'; rw [← hL2', dictGet_dictSet_self]
      | bool b0 =>
        rw [hs] at hL2'
        simp only [] at hL2'
        cases ht : dictGet L "shown_today" with
        | none => rw [ht] at hL2'; simp only [] at hL2'; rw [← hL2', dictGet_dictSet_self]
        | some w =>
          cases w with
          | obj legacy => rw [ht] at hL2'; simp only [] at hL2'; rw [← hL2', dictGet_dictSet_self]
          | null => rw [ht] at hL2'; simp only [] at hL2'; rw [← hL2', dictGet_dictSet_self]
          | bool b => rw [ht] at hL2'; simp only [] at hL2'; rw [← hL2', dictGet_dictSet_self]
          | num q => rw [ht] at hL2'; simp only [] at hL2'; rw [← hL2', dictGet_dictSet_self]
          | str s3 => rw [ht] at hL2'; simp only [] at hL2'; rw [← hL2', dictGet_dictSet_self]
          | arr x => rw [ht] at hL2'; simp only [] at hL2'; rw [← hL2', dictGet_dictSet_self]
      | num q0 =>
        rw [hs] at hL2'
        simp only [] at hL2'
        cases ht : dictGet L "shown_today" with
        | none => rw [ht] at hL2'; simp only [] at hL2'; rw [← hL2', dictGet_dictSet_self]
        | some w =>
          cases w with
          | obj legacy => rw [ht] at hL2'; simp only [] at hL2'; rw [← hL2', dictGet_dictSet_self]
          | null => rw [ht] at hL2'; simp only [] at hL2'; rw [← hL2', dictGet_dictSet_self]
          | bool b => rw [ht] at hL2'; simp only [] at hL2'; rw [← hL2', dictGet_dictSet_self]
          | num q => rw [ht] at hL2'; simp only [] at hL2'; rw [← hL2', dictGet_dictSet_self]
          | str s3 => rw [ht] at hL2'; simp only [] at hL2'; rw [← hL2', dictGet_dictSet_self]
          | arr x => rw [ht] at hL2'; simp only [] at hL2'; rw [← hL2', dictGet_dictSet_self]
      | str s0 =>
        rw [hs] at hL2'
        simp only [] at hL2'
        cases ht : dictGet L "shown_today" with
        | none => rw [ht] at hL2'; simp only [] at hL2'; rw [← hL2', dictGet_dictSet_self]
        | some w =>
          cases w with
          | obj legacy => rw [ht] at hL2'; simp only [] at hL2'; rw [← hL2', dictGet_dictSet_self]
          | null => rw [ht] at hL2'; simp only [] at hL2'; rw [← hL2', dictGet_dictSet_self]
          | bool b => rw [ht] at hL2'; simp only [] at hL2'; rw [← hL2', dictGet_dictSet_self]
          | num q => rw [ht] at hL2'; simp only [] at hL2'; rw [← hL2', dictGet_dictSet_self]
          | str s3 => rw [ht] at hL2'; simp only [] at hL2'; rw [← hL2', dictGet_dictSet_self]
          | arr x => rw [ht] at hL2'; simp only [] at hL2'; rw [← hL2', dictGet_dictSet_self]
      | arr x0 =>
        rw [hs] at hL2'
        simp only [] at hL2'
        cases ht : dictGet L "shown_today" with
        | none => rw [ht] at hL2'; simp only [] at hL2'; rw [← hL2', dictGet_dictSet_self]
        | some w =>
          cases w with
          | obj legacy => rw [ht] at hL2'; simp only [] at hL2'; rw [← hL2', dictGet_dictSet_self]
          | null => rw [ht] at hL2'; simp only [] at hL2'; rw [← hL2', dictGet_dictSet_self]
          | bool b => rw [ht] at hL2'; simp only [] at hL2'; rw [← hL2', dictGet_dictSet_self]
          | num q => rw [ht] at hL2'; simp only [] at hL2'; rw [← hL2', dictGet_dictSet_self]
          | str s3 => rw [ht] at hL2'; simp only [] at hL2'; rw [← hL2', dictGet_dictSet_self]
          | arr x => rw [ht] at hL2'; simp only [] at hL2'; rw [← hL2', dictGet_dictSet_self]
  refine ⟨dictPop L2' "shown_today", ?_, ⟨pd1, ?_⟩, ⟨ss2, ?_⟩, ?_, ?_, ?_, ?_, ?_⟩
  · rw [coerceLearning, hL1, hL2']
  · rw [dictGet_dictPop]
    simp only [if_neg (by decide : ¬("pending" = "shown_today"))]
    rw [hL2'k "pending" (by decide), hpd1]
  · rw [dictGet_dictPop]
    simp only [if_neg (by decide : ¬("shown_session" = "shown_today"))]
    exact hss2
  · rw [dictGet_dictPop]
    simp
  · intro k hkp hks hkt
    rw [dictGet_dictPop]
    simp only [if_neg hkt]
    rw [hL2'k k hks, hL1k k hkp]
  · rw [dictGet_dictPop]
    simp only [if_neg (by decide : ¬("pending" = "shown_today"))]
    rw [hL2'k "pending" (by decide), hpd1_match]
  · intro so hso
    rw [dictGet_dictPop]
    simp only [if_neg (by decide : ¬("shown_session" = "shown_today"))]
    exact hss_keep so ((hL1k "shown_session" (by decide)).trans hso)
  · rw [dictGet_dictPop]
    simp only [if_neg (by decide : ¬("shown_session" = "shown_today"))]
    exact hss_match

/-- Claim C8 as amended: for every JSON object document whose filters and
learning values, when present, are themselves objects, normalize_config
terminates without raising and returns a config whose filters.allow and
filters.block are lists, whose learning.pending and learning.shown_session
are dicts, and in which every top-level key missing from the document is
filled from the defaults; a type-mismatched allow, block or pending value
in the document is coerced to the corresponding empty container, while a
type-mismatched shown_session is replaced by the document's legacy
shown_today value when that value is a dict, and by the empty dict
otherwise. -/
theorem normalize_config_spec (data : JObj)
    (hdf : dictGet data "filters" = none ∨ ∃ fo, dictGet data "filters" = some (.obj fo))
    (hdl : dictGet data "learning" = none ∨ ∃ lo, dictGet data "learning" = some (.obj lo)) :
    ∃ cfg f a b l pd ss,
      normalize_config data = some cfg ∧
      dictGet cfg "filters" = some (.obj f) ∧
      dictGet f "allow" = some (.arr a) ∧
      dictGet f "block" = some (.arr b) ∧
      dictGet cfg "learning" = some (.obj l) ∧
      dictGet l "pending" = some (.obj pd) ∧
      dictGet l "shown_session" = some (.obj ss) ∧
      (∀ k, dictGet data k = none → dictGet cfg k = dictGet default_config k) ∧
      (∀ fo w, dictGet data "filters" = some (.obj fo) → dictGet fo "allow" = some w →
        (∀ xs, w ≠ .arr xs) → a = []) ∧
      (∀ fo w, dictGet data "filters" = some (.obj fo) → dictGet fo "block" = some w →
        (∀ xs, w ≠ .arr xs) → b = []) ∧
      (∀ lo w, dictGet data "learning" = some (.obj lo) → dictGet lo "pending" = some w →
        (∀ o, w ≠ .obj o) → pd = []) ∧
      (∀ lo w, dictGet data "learning" = some (.obj lo) →
        dictGet lo "shown_session" = some w → (∀ o, w ≠ .obj o) →
        ss = (match dictGet lo "shown_today" with
              | some (.obj legacy) => legacy
              | _ => [])) := by
  have hdfil : dictGet default_config "filters"
      = some (.obj [("allow", .arr [.str "com.squirrel.Discord.Discord"]),
                    ("block", .arr [])]) := rfl
  have hdlrn : dictGet default_config "learning"
      = some (.obj [("enabled", .bool true), ("last_reset", .null),
                    ("pending", .obj []), ("shown_session", .obj [])]) := rfl
  obtain ⟨F, hmf⟩ : ∃ F, dictGet (deep_merge default_config data) "filters" = some (.obj F) := by
    rw [dictGet_deep_merge, hdfil]
    rcases hdf with h | ⟨fo, h⟩ <;> rw [h]
    · exact ⟨_, rfl⟩
    · exact ⟨_, rfl⟩
  obtain ⟨L, hml⟩ : ∃ L, dictGet (deep_merge default_config data) "learning" = some (.obj L) := by
    rw [dictGet_deep_merge, hdlrn]
    rcases hdl with h | ⟨lo, h⟩ <;> rw [h]
    · exact ⟨_, rfl⟩
    · exact ⟨_, rfl⟩
  obtain ⟨F2, hF2, ⟨a2, ha2⟩, ⟨b2, hb2⟩, hF2k, hFmA, hFmB⟩ := coerceFilters_obj F
  obtain ⟨L2, hL2, ⟨pd2, hpd2⟩, ⟨ss2, hss2⟩, hst2, hL2k, hLmP, _, hLmS⟩ := coerceLearning_obj L
  have hnorm : normalize_config data
      = some (dictSet (dictSet (deep_merge default_config data) "filters" (.obj F2))
          "learning" (.obj L2)) := by
    rw [normalize_config]
    rw [hmf, hml]
    simp only [Option.getD_some]
    rw [hF2, hL2]
  refine ⟨_, F2, a2, b2, L2, pd2, ss2, hnorm, ?_, ha2, hb2,
      dictGet_dictSet_self .., hpd2, hss2, ?_, ?_, ?_, ?_, ?_⟩
  · rw [dictGet_dictSet_ne _ _ _ _ (by decide), dictGet_dictSet_self]
  · intro k hk
    by_cases hkf : k = "filters"
    · subst hkf
      have h1 : dictGet (deep_merge default_config data) "filters"
          = dictGet default_config "filters" := by
        rw [dictGet_deep_merge, hdfil, hk]
      rw [h1, hdfil] at hmf
      have hFd : F = [("allow", .arr [.str "com.squirrel.Discord.Discord"]),
          ("block", .arr [])] := by
        simpa using hmf.symm
      have hcF : coerceFilters
          (.obj [("allow", .arr [.str "com.squirrel.Discord.Discord"]), ("block", .arr [])])
          = some [("allow", .arr [.str "com.squirrel.Discord.Discord"]), ("block", .arr [])] := rfl
      rw [hFd, hcF] at hF2
      have hF2d : F2 = [("allow", .arr [.str "com.squirrel.Discord.Discord"]),
          ("block", .arr [])] := by
        simpa using hF2.symm
      rw [dictGet_dictSet_ne _ _ _ _ (by decide), dictGet_dictSet_self, hdfil, hF2d]
    · by_cases hkl : k = "learning"
      · subst hkl
        have h1 : dictGet (deep_merge default_config data) "learning"
            = dictGet default_config "learning" := by
          rw [dictGet_deep_merge, hdlrn, hk]
        rw [h1, hdlrn] at hml
        have hLd : L = [("enabled", .bool true), ("last_reset", .null),
            ("pending", .obj []), ("shown_session", .obj [])] := by
          simpa using hml.symm
        have hcL : coerceLearning
            (.obj [("enabled", .bool true), ("last_reset", .null),
              ("pending", .obj []), ("shown_session", .obj [])])
            = some [("enabled", .bool true), ("last_reset", .null),
              ("pending", .obj []), ("shown_session", .obj [])] := rfl
        rw [hLd, hcL] at hL2
        have hL2d : L2 = [("enabled", .bool true), ("last_reset", .null),
            ("pending", .obj []), ("shown_session", .obj [])] := by
          simpa using hL2.symm
        rw [dictGet_dictSet_self, hdlrn, hL2d]
      · rw [dictGet_dictSet_ne _ _ _ _ hkl, dictGet_dictSet_ne _ _ _ _ hkf,
          dictGet_deep_merge, hk]
        cases hd : dictGet default_config k <;> simp
  · intro fo w hfo hw hnarr
    have hmf2 : dictGet (deep_merge default_config data) "filters"
        = some (.obj (deep_merge [("allow", JVal.arr [JVal.str "com.squirrel.Discord.Discord"]),
        ("block", JVal.arr [])] fo)) := by
      have h0 := dictGet_deep_merge default_config data "filters"
      rw [hdfil, hfo] at h0
      exact h0.trans rfl
    have hFd : F = deep_merge [("allow", JVal.arr [JVal.str "com.squirrel.Discord.Discord"]),
        ("block", JVal.arr [])] fo := by
      have h1 := hmf.symm.trans hmf2
      simpa using h1
    have hFa : dictGet F "allow" = some w := by
      rw [hFd, dictGet_deep_merge]
      rw [show dictGet [("allow", JVal.arr [JVal.str "com.squirrel.Discord.Discord"]),
        ("block", JVal.arr [])] "allow"
        = some (JVal.arr [JVal.str "com.squirrel.Discord.Discord"]) from rfl]
      rw [hw]
      cases w with
      | null => rfl
      | bool b => rfl
      | num q => rfl
      | str s => rfl
      | arr xs => rfl
      | obj o => rfl
    have hF2a : dictGet F2 "allow" = some (.arr []) := by
      rw [hFmA, hFa]
      cases w with
      | arr xs => exact absurd rfl (hnarr xs)
      | null => rfl
      | bool b => rfl
      | num q => rfl
      | str s => rfl
      | obj o => rfl
    rw [hF2a] at ha2
    simpa using ha2.symm
  · intro fo w hfo hw hnarr
    have hmf2 : dictGet (deep_merge default_config data) "filters"
        = some (.obj (deep_merge [("allow", JVal.arr [JVal.str "com.squirrel.Discord.Discord"]),
        ("block", JVal.arr [])] fo)) := by
      have h0 := dictGet_deep_merge default_config data "filters"
      rw [hdfil, hfo] at h0
      exact h0.trans rfl
    have hFd : F = deep_merge [("allow", JVal.arr [JVal.str "com.squirrel.Discord.Discord"]),
        ("block", JVal.arr [])] fo := by
      have h1 := hmf.symm.trans hmf2
      simpa using h1
    have hFb : dictGet F "block" = some w := by
      rw [hFd, dictGet_deep_merge]
      rw [show dictGet [("allow", JVal.arr [JVal.str "com.squirrel.Discord.Discord"]),
        ("block", JVal.arr [])] "block" = some (JVal.arr []) from rfl]
      rw [hw]
      cases w with
      | null => rfl
      | bool b => rfl
      | num q => rfl
      | str s => rfl
      | arr xs => rfl
      | obj o => rfl
    have hF2b : dictGet F2 "block" = some (.arr []) := by
      rw [hFmB, hFb]
      cases w with
      | arr xs => exact absurd rfl (hnarr xs)
      | null => rfl
      | bool b => rfl
      | num q => rfl
      | str s => rfl
      | obj o => rfl
    rw [hF2b] at hb2
    simpa using hb2.symm
  · intro lo w hlo hw hnobj
    have hml2 : dictGet (deep_merge default_config data) "learning"
        = some (.obj (deep_merge [("enabled", JVal.bool true), ("last_reset", JVal.null),
        ("pending", JVal.obj []), ("shown_session", JVal.obj [])] lo)) := by
      have h0 := dictGet_deep_merge default_config data "learning"
      rw [hdlrn, hlo] at h0
      exact h0.trans rfl
    have hLd : L = deep_merge [("enabled", JVal.bool true), ("last_reset", JVal.null),
        ("pending", JVal.obj []), ("shown_session", JVal.obj [])] lo := by
      have h1 := hml.symm.trans hml2
      simpa using h1
    have hLp : dictGet L "pending" = some w := by
      rw [hLd, dictGet_deep_merge]
      rw [show dictGet [("enabled", JVal.bool true), ("last_reset", JVal.null),
        ("pending", JVal.obj []), ("shown_session", JVal.obj [])] "pending" = some (JVal.obj []) from rfl]
      rw [hw]
      cases w with
      | obj o => exact absurd rfl (hnobj o)
      | null => rfl
      | bool b => rfl
      | num q => rfl
      | str s => rfl
      | arr x => rfl
    have hL2p : dictGet L2 "pending" = some (.obj []) := by
      rw [hLmP, hLp]
      cases w with
      | obj o => exact absurd rfl (hnobj o)
      | null => rfl
      | bool b => rfl
      | num q => rfl
      | str s => rfl
      | arr x => rfl
    rw [hL2p] at hpd2
    simpa using hpd2.symm
  · intro lo w hlo hw hnobj
    have hml2 : dictGet (deep_merge default_config data) "learning"
        = some (.obj (deep_merge [("enabled", JVal.bool true), ("last_reset", JVal.null),
        ("pending", JVal.obj []), ("shown_session", JVal.obj [])] lo)) := by
      have h0 := dictGet_deep_merge default_config data "learning"
      rw [hdlrn, hlo] at h0
      exact h0.trans rfl
    have hLd : L = deep_merge [("enabled", JVal.bool true), ("last_reset", JVal.null),
        ("pending", JVal.obj []), ("shown_session", JVal.obj [])] lo := by
      have h1 := hml.symm.trans hml2
      simpa using h1
    have hLs : dictGet L "shown_session" = some w := by
      rw [hLd, dictGet_deep_merge]
      rw [show dictGet [("enabled", JVal.bool true), ("last_reset", JVal.null),
        ("pending", JVal.obj []), ("shown_session", JVal.obj [])] "shown_session" = some (JVal.obj []) from rfl]
      rw [hw]
      cases w with
      | obj o => exact absurd rfl (hnobj o)
      | null => rfl
      | bool b => rfl
      | num q => rfl
      | str s => rfl
      | arr x => rfl
    have hLt : dictGet L "shown_today" = dictGet lo "shown_today" := by
      rw [hLd, dictGet_deep_merge]
      rw [show dictGet [("enabled", JVal.bool true), ("last_reset", JVal.null),
        ("pending", JVal.obj []), ("shown_session", JVal.obj [])] "shown_today" = none from rfl]
    have hL2s : dictGet L2 "shown_session" = (match dictGet lo "shown_today" with
        | some (.obj legacy) => some (.obj legacy)
        | _ => some (.obj [])) := by
      rw [hLmS, hLs, hLt]
      cases w with
      | obj o => exact absurd rfl (hnobj o)
      | null =>
        cases dictGet lo "shown_today" with
        | none => rfl
        | some t => cases t <;> rfl
      | bool b =>
        cases dictGet lo "shown_today" with
        | none => rfl
        | some t => cases t <;> rfl
      | num q =>
        cases dictGet lo "shown_today" with
        | none => rfl
        | some t => cases t <;> rfl
      | str s =>
        cases dictGet lo "shown_today" with
        | none => rfl
        | some t => cases t <;> rfl
      | arr x =>
        cases dictGet lo "shown_today" with
        | none => rfl
        | some t => cases t <;> rfl
    rw [hL2s] at hss2
    cases htv : dictGet lo "shown_today" with
    | none => rw [htv] at hss2; simpa using hss2.symm
    | some t =>
      cases t with
      | obj legacy => rw [htv] at hss2; simpa using hss2.symm
      | null => rw [htv] at hss2; simpa using hss2.symm
      | bool b => rw [htv] at hss2; simpa using hss2.symm
      | num q => rw [htv] at hss2; simpa using hss2.symm
      | str s => rw [htv] at hss2; simpa using hss2.symm
      | arr x => rw [htv] at hss2; simpa using hss2.symm

/-- Witness for C8: the empty document normalizes to the defaults, via the
theorem. -/
theorem normalize_config_spec_witness : normalize_config [] = some default_config := by
  obtain ⟨cfg, f, a, b, l, pd, ss, h1, _⟩ :=
    normalize_config_spec [] (Or.inl rfl) (Or.inl rfl)
  have h2 : normalize_config ([] : JObj) = some default_config := rfl
  rw [h1] at h2
  rw [h1, h2]

/-- Counterexample for C8: a document whose filters value is a number makes
normalize_config raise AttributeError at filters.get instead of
terminating with a coerced config, contradicting the claim's quantification
over wrong-typed values for any key. -/
theorem normalize_config_cex : normalize_config [("filters", .num 5)] = none := rfl

/-- A deep merge preserves, verbatim from the loaded document, every path
that is absent from the defaults. -/
lemma getPath_deep_merge : ∀ (p : List String) (d x : JObj),
    getPath (.obj d) p = none →
    getPath (.obj (deep_merge d x)) p = getPath (.obj x) p := by
  intro p
  induction p with
  | nil => intro d x h; simp [getPath] at h
  | cons k rest ih =>
    intro d x h
    simp only [getPath] at h ⊢
    rw [dictGet_deep_merge]
    cases hd : dictGet d k with
    | none => cases hx : dictGet x k <;> simp
    | some v =>
      rw [hd] at h
      simp only [] at h
      cases hx : dictGet x k with
      | none => simp [h]
      | some dv =>
        cases v with
        | obj dsub =>
          cases dv with
          | obj xsub =>
            show getPath (.obj (deep_merge dsub xsub)) rest = getPath (.obj xsub) rest
            exact ih dsub xsub h
          | null => rfl
          | bool b => rfl
          | num q => rfl
          | str s => rfl
          | arr y => rfl
        | null => cases dv <;> rfl
        | bool b => cases dv <;> rfl
        | num q => cases dv <;> rfl
        | str s => cases dv <;> rfl
        | arr y => cases dv <;> rfl

/-- Claim C9 as amended: normalization preserves, verbatim, the value of
every top-level or nested key path that does not appear in the defaults,
provided the path does not descend through a default leaf that is not an
object (the coercible allow/block lists and the scalar settings), does not
pass through the legacy learning.shown_today key (which is removed, after
an optional migration into shown_session), and, when it passes through
learning.shown_session, the document's own shown_session value is absent or
a dict (so the legacy migration does not replace it); the document's
filters and learning values, when present, must be objects for
normalization to terminate. -/
theorem normalize_unknown_keys_preserved (data : JObj) (p : List String)
    (hdf : dictGet data "filters" = none ∨ ∃ fo, dictGet data "filters" = some (.obj fo))
    (hdl : dictGet data "learning" = none ∨ ∃ lo, dictGet data "learning" = some (.obj lo))
    (hunk : getPath (.obj default_config) p = none)
    (hanc : ∀ q, q <+: p → q ≠ p →
      getPath (.obj default_config) q = none ∨
        ∃ o, getPath (.obj default_config) q = some (.obj o))
    (hst : ¬ (["learning", "shown_today"] <+: p))
    (hss : ["learning", "shown_session"] <+: p →
      ∀ lo, dictGet data "learning" = some (.obj lo) →
        dictGet lo "shown_session" = none ∨ ∃ so, dictGet lo "shown_session" = some (.obj so)) :
    ∃ cfg, normalize_config data = some cfg ∧
      getPath (.obj cfg) p = getPath (.obj data) p := by
  have hdfil : dictGet default_config "filters"
      = some (.obj [("allow", .arr [.str "com.squirrel.Discord.Discord"]),
                    ("block", .arr [])]) := rfl
  have hdlrn : dictGet default_config "learning"
      = some (.obj [("enabled", .bool true), ("last_reset", .null),
                    ("pending", .obj []), ("shown_session", .obj [])]) := rfl
  set M := deep_merge default_config data with hM
  obtain ⟨F, hmf⟩ : ∃ F, dictGet M "filters" = some (.obj F) := by
    rw [hM, dictGet_deep_merge, hdfil]
    rcases hdf with h | ⟨fo, h⟩ <;> rw [h]
    · exact ⟨_, rfl⟩
    · exact ⟨_, rfl⟩
  obtain ⟨L, hml⟩ : ∃ L, dictGet M "learning" = some (.obj L) := by
    rw [hM, dictGet_deep_merge, hdlrn]
    rcases hdl with h | ⟨lo, h⟩ <;> rw [h]
    · exact ⟨_, rfl⟩
    · exact ⟨_, rfl⟩
  obtain ⟨F2, hF2, ⟨a2, ha2⟩, ⟨b2, hb2⟩, hF2k, _, _⟩ := coerceFilters_obj F
  obtain ⟨L2, hL2, ⟨pd2, hpd2⟩, ⟨ss2, hss2⟩, hst2, hL2k, hpd_match, hss_keep, _⟩ :=
    coerceLearning_obj L
  have hnorm : normalize_config data
      = some (dictSet (dictSet M "filters" (.obj F2)) "learning" (.obj L2)) := by
    rw [normalize_config, ← hM, hmf, hml]
    simp only [Option.getD_some]
    rw [hF2, hL2]
  refine ⟨dictSet (dictSet M "filters" (.obj F2)) "learning" (.obj L2), hnorm, ?_⟩
  set C := dictSet (dictSet M "filters" (.obj F2)) "learning" (.obj L2) with hC
  have hcf : dictGet C "filters" = some (.obj F2) := by
    rw [hC, dictGet_dictSet_ne _ _ _ _ (by decide), dictGet_dictSet_self]
  have hcl : dictGet C "learning" = some (.obj L2) := by
    rw [hC]; exact dictGet_dictSet_self ..
  cases p with
  | nil => simp [getPath] at hunk
  | cons k rest =>
    by_cases hkf : k = "filters"
    · subst hkf
      cases rest with
      | nil =>
        rw [show getPath (.obj default_config) ["filters"]
            = some (.obj [("allow", .arr [.str "com.squirrel.Discord.Discord"]),
                          ("block", .arr [])]) from rfl] at hunk
        simp at hunk
      | cons k2 rest2 =>
        have hunk2 : getPath (.obj [("allow", JVal.arr [JVal.str "com.squirrel.Discord.Discord"]),
            ("block", JVal.arr [])]) (k2 :: rest2) = none := hunk
        have hLHS : getPath (.obj C) ("filters" :: k2 :: rest2)
            = getPath (.obj F2) (k2 :: rest2) := by
          show (match dictGet C "filters" with
            | some v => getPath v (k2 :: rest2) | none => none) = _
          rw [hcf]
        rw [hLHS]
        by_cases hk2a : k2 = "allow"
        · subst hk2a
          exfalso
          cases rest2 with
          | nil =>
            rw [show getPath (.obj [("allow", JVal.arr [JVal.str "com.squirrel.Discord.Discord"]),
                ("block", JVal.arr [])]) ["allow"]
                = some (.arr [.str "com.squirrel.Discord.Discord"]) from rfl] at hunk2
            simp at hunk2
          | cons k3 rest3 =>
            rcases hanc ["filters", "allow"] ⟨k3 :: rest3, rfl⟩ (by simp) with hq | ⟨o, hq⟩ <;>
              rw [show getPath (.obj default_config) ["filters", "allow"]
                = some (.arr [.str "com.squirrel.Discord.Discord"]) from rfl] at hq <;>
              simp at hq
        · by_cases hk2b : k2 = "block"
          · subst hk2b
            exfalso
            cases rest2 with
            | nil =>
              rw [show getPath (.obj [("allow", JVal.arr [JVal.str "com.squirrel.Discord.Discord"]),
                  ("block", JVal.arr [])]) ["block"] = some (.arr []) from rfl] at hunk2
              simp at hunk2
            | cons k3 rest3 =>
              rcases hanc ["filters", "block"] ⟨k3 :: rest3, rfl⟩ (by simp) with hq | ⟨o, hq⟩ <;>
                rw [show getPath (.obj default_config) ["filters", "block"]
                  = some (.arr []) from rfl] at hq <;>
                simp at hq
          · have hLHS2 : getPath (.obj F2) (k2 :: rest2) = getPath (.obj F) (k2 :: rest2) := by
              show (match dictGet F2 k2 with
                | some v => getPath v rest2 | none => none) = _
              rw [hF2k k2 hk2a hk2b]
              rfl
            rw [hLHS2]
            rcases hdf with h | ⟨fo, h⟩
            · have hmf2 : dictGet M "filters"
                  = some (.obj [("allow", .arr [.str "com.squirrel.Discord.Discord"]),
                                ("block", .arr [])]) := by
                rw [hM, dictGet_deep_merge, hdfil, h]
              rw [hmf2] at hmf
              have hFd : F = [("allow", .arr [.str "com.squirrel.Discord.Discord"]),
                  ("block", .arr [])] := by simpa using hmf.symm
              have hL0 : getPath (.obj F) (k2 :: rest2) = none := by
                rw [hFd]
                show (match dictGet [("allow", JVal.arr [JVal.str "com.squirrel.Discord.Discord"]),
                  ("block", JVal.arr [])] k2 with
                  | some v => getPath v rest2 | none => none) = none
                rw [show dictGet [("allow", JVal.arr [JVal.str "com.squirrel.Discord.Discord"]),
                  ("block", JVal.arr [])] k2 = none from by
                  simp [dictGet, Ne.symm hk2a, Ne.symm hk2b]]
              have hR : getPath (.obj data) ("filters" :: k2 :: rest2) = none := by
                show (match dictGet data "filters" with
                  | some v => getPath v (k2 :: rest2) | none => none) = none
                rw [h]
              rw [hL0, hR]
            · have hmf2 : dictGet M "filters"
                  = some (.obj (deep_merge
                      [("allow", .arr [.str "com.squirrel.Discord.Discord"]), ("block", .arr [])]
                      fo)) := by
                rw [hM, dictGet_deep_merge, hdfil, h]
                rfl
              rw [hmf2] at hmf
              have hFd : F = deep_merge
                  [("allow", .arr [.str "com.squirrel.Discord.Discord"]), ("block", .arr [])]
                  fo := by simpa using hmf.symm
              have hR : getPath (.obj data) ("filters" :: k2 :: rest2)
                  = getPath (.obj fo) (k2 :: rest2) := by
                show (match dictGet data "filters" with
                  | some v => getPath v (k2 :: rest2) | none => none) = _
                rw [h]
              rw [hR, hFd]
              exact getPath_deep_merge (k2 :: rest2) _ fo hunk2
    · by_cases hkl : k = "learning"
      · subst hkl
        cases rest with
        | nil =>
          rw [show getPath (.obj default_config) ["learning"]
              = some (.obj [("enabled", .bool true), ("last_reset", .null),
                            ("pending", .obj []), ("shown_session", .obj [])]) from rfl] at hunk
          simp at hunk
        | cons k2 rest2 =>
          have hunk2 : getPath (.obj [("enabled", JVal.bool true), ("last_reset", JVal.null),
              ("pending", JVal.obj []), ("shown_session", JVal.obj [])]) (k2 :: rest2)
              = none := hunk
          have hLHS : getPath (.obj C) ("learning" :: k2 :: rest2)
              = getPath (.obj L2) (k2 :: rest2) := by
            show (match dictGet C "learning" with
              | some v => getPath v (k2 :: rest2) | none => none) = _
            rw [hcl]
          rw [hLHS]
          by_cases hk2st : k2 = "shown_today"
          · exact absurd ⟨rest2, by subst hk2st; rfl⟩ hst
          · by_cases hk2p : k2 = "pending"
            · subst hk2p
              cases rest2 with
              | nil =>
                rw [show getPath (.obj [("enabled", JVal.bool true), ("last_reset", JVal.null),
                    ("pending", JVal.obj []), ("shown_session", JVal.obj [])]) ["pending"]
                    = some (.obj []) from rfl] at hunk2
                simp at hunk2
              | cons k3 rest3 =>
                rcases hdl with h | ⟨lo, h⟩
                · have hml2 : dictGet M "learning"
                      = some (.obj [("enabled", .bool true), ("last_reset", .null),
                                    ("pending", .obj []), ("shown_session", .obj [])]) := by
                    rw [hM, dictGet_deep_merge, hdlrn, h]
                  rw [hml2] at hml
                  have hLd : L = [("enabled", .bool true), ("last_reset", .null),
                      ("pending", .obj []), ("shown_session", .obj [])] := by
                    simpa using hml.symm
                  have hLp : dictGet L "pending" = some (.obj []) := by
                    rw [hLd]
                    rfl
                  have hL2p : dictGet L2 "pending" = some (.obj []) := by
                    rw [hpd_match, hLp]
                  have hL0 : getPath (.obj L2) ("pending" :: k3 :: rest3) = none := by
                    show (match dictGet L2 "pending" with
                      | some v => getPath v (k3 :: rest3) | none => none) = none
                    rw [hL2p]
                    rfl
                  have hR : getPath (.obj data) ("learning" :: "pending" :: k3 :: rest3)
                      = none := by
                    show (match dictGet data "learning" with
                      | some v => getPath v ("pending" :: k3 :: rest3) | none => none) = none
                    rw [h]
                  rw [hL0, hR]
                · have hml2 : dictGet M "learning"
                      = some (.obj (deep_merge [("enabled", .bool true), ("last_reset", .null),
                          ("pending", .obj []), ("shown_session", .obj [])] lo)) := by
                    rw [hM, dictGet_deep_merge, hdlrn, h]
                    rfl
                  rw [hml2] at hml
                  have hLd : L = deep_merge [("enabled", .bool true), ("last_reset", .null),
                      ("pending", .obj []), ("shown_session", .obj [])] lo := by
                    simpa using hml.symm
                  have hR : getPath (.obj data) ("learning" :: "pending" :: k3 :: rest3)
                      = getPath (.obj lo) ("pending" :: k3 :: rest3) := by
                    show (match dictGet data "learning" with
                      | some v => getPath v ("pending" :: k3 :: rest3) | none => none) = _
                    rw [h]
                  rw [hR]
                  have hLpend : dictGet L "pending"
                      = match dictGet lo "pending" with
                        | some pv => some (mergeVal (.obj []) pv)
                        | none => some (.obj []) := by
                    rw [hLd, dictGet_deep_merge]
                    rw [show dictGet [("enabled", JVal.bool true), ("last_reset", JVal.null),
                      ("pending", JVal.obj []), ("shown_session", JVal.obj [])] "pending"
                      = some (.obj []) from rfl]
                    cases dictGet lo "pending" <;> rfl
                  cases hlop : dictGet lo "pending" with
                  | none =>
                    rw [hlop] at hLpend
                    simp only [] at hLpend
                    have hL2p : dictGet L2 "pending" = some (.obj []) := by
                      rw [hpd_match, hLpend]
                    have hL0 : getPath (.obj L2) ("pending" :: k3 :: rest3) = none := by
                      show (match dictGet L2 "pending" with
                        | some v => getPath v (k3 :: rest3) | none => none) = none
                      rw [hL2p]
                      rfl
                    have hR0 : getPath (.obj lo) ("pending" :: k3 :: rest3) = none := by
                      show (match dictGet lo "pending" with
                        | some v => getPath v (k3 :: rest3) | none => none) = none
                      rw [hlop]
                    rw [hL0, hR0]
                  | some pv =>
                    rw [hlop] at hLpend
                    simp only [] at hLpend
                    have hR0 : getPath (.obj lo) ("pending" :: k3 :: rest3)
                        = getPath pv (k3 :: rest3) := by
                      show (match dictGet lo "pending" with
                        | some v => getPath v (k3 :: rest3) | none => none) = _
                      rw [hlop]
                    rw [hR0]
                    cases pv with
                    | obj po =>
                      have hLpo : dictGet L "pending" = some (.obj (deep_merge [] po)) := hLpend
                      have hL2p : dictGet L2 "pending" = some (.obj (deep_merge [] po)) := by
                        rw [hpd_match, hLpo]
                      have hL0 : getPath (.obj L2) ("pending" :: k3 :: rest3)
                          = getPath (.obj (deep_merge [] po)) (k3 :: rest3) := by
                        show (match dictGet L2 "pending" with
                          | some v => getPath v (k3 :: rest3) | none => none) = _
                        rw [hL2p]
                      rw [hL0]
                      exact getPath_deep_merge (k3 :: rest3) [] po rfl
                    | null =>
                      have hL2p : dictGet L2 "pending" = some (.obj []) := by
                        rw [hpd_match, hLpend]
                        rfl
                      have hL0 : getPath (.obj L2) ("pending" :: k3 :: rest3) = none := by
                        show (match dictGet L2 "pending" with
                          | some v => getPath v (k3 :: rest3) | none => none) = none
                        rw [hL2p]
                        rfl
                      rw [hL0]
                      rfl
                    | bool b =>
                      have hL2p : dictGet L2 "pending" = some (.obj []) := by
                        rw [hpd_match, hLpend]
                        rfl
                      have hL0 : getPath (.obj L2) ("pending" :: k3 :: rest3) = none := by
                        show (match dictGet L2 "pending" with
                          | some v => getPath v (k3 :: rest3) | none => none) = none
                        rw [hL2p]
                        rfl
                      rw [hL0]
                      rfl
                    | num q =>
                      have hL2p : dictGet L2 "pending" = some (.obj []) := by
                        rw [hpd_match, hLpend]
                        rfl
                      have hL0 : getPath (.obj L2) ("pending" :: k3 :: rest3) = none := by
                        show (match dictGet L2 "pending" with
                          | some v => getPath v (k3 :: rest3) | none => none) = none
                        rw [hL2p]
                        rfl
                      rw [hL0]
                      rfl
                    | str s =>
                      have hL2p : dictGet L2 "pending" = some (.obj []) := by
                        rw [hpd_match, hLpend]
                        rfl
                      have hL0 : getPath (.obj L2) ("pending" :: k3 :: rest3) = none := by
                        show (match dictGet L2 "pending" with
                          | some v => getPath v (k3 :: rest3) | none => none) = none
                        rw [hL2p]
                        rfl
                      rw [hL0]
                      rfl
                    | arr y =>
                      have hL2p : dictGet L2 "pending" = some (.obj []) := by
                        rw [hpd_match, hLpend]
                        rfl
                      have hL0 : getPath (.obj L2) ("pending" :: k3 :: rest3) = none := by
                        show (match dictGet L2 "pending" with
                          | some v => getPath v (k3 :: rest3) | none => none) = none
                        rw [hL2p]
                        rfl
                      rw [hL0]
                      rfl
            · by_cases hk2s : k2 = "shown_session"
              · subst hk2s
                cases rest2 with
                | nil =>
                  rw [show getPath (.obj [("enabled", JVal.bool true), ("last_reset", JVal.null),
                      ("pending", JVal.obj []), ("shown_session", JVal.obj [])]) ["shown_session"]
                      = some (.obj []) from rfl] at hunk2
                  simp at hunk2
                | cons k3 rest3 =>
                  rcases hdl with h | ⟨lo, h⟩
                  · have hml2 : dictGet M "learning"
                        = some (.obj [("enabled", .bool true), ("last_reset", .null),
                                      ("pending", .obj []), ("shown_session", .obj [])]) := by
                      rw [hM, dictGet_deep_merge, hdlrn, h]
                    rw [hml2] at hml
                    have hLd : L = [("enabled", .bool true), ("last_reset", .null),
                        ("pending", .obj []), ("shown_session", .obj [])] := by
                      simpa using hml.symm
                    have hLs : dictGet L "shown_session" = some (.obj []) := by
                      rw [hLd]
                      rfl
                    have hL2s : dictGet L2 "shown_session" = some (.obj []) :=
                      hss_keep [] hLs
                    have hL0 : getPath (.obj L2) ("shown_session" :: k3 :: rest3) = none := by
                      show (match dictGet L2 "shown_session" with
                        | some v => getPath v (k3 :: rest3) | none => none) = none
                      rw [hL2s]
                      rfl
                    have hR : getPath (.obj data) ("learning" :: "shown_session" :: k3 :: rest3)
                        = none := by
                      show (match dictGet data "learning" with
                        | some v => getPath v ("shown_session" :: k3 :: rest3)
                        | none => none) = none
                      rw [h]
                    rw [hL0, hR]
                  · have hml2 : dictGet M "learning"
                        = some (.obj (deep_merge [("enabled", .bool true), ("last_reset", .null),
                            ("pending", .obj []), ("shown_session", .obj [])] lo)) := by
                      rw [hM, dictGet_deep_merge, hdlrn, h]
                      rfl
                    rw [hml2] at hml
                    have hLd : L = deep_merge [("enabled", .bool true), ("last_reset", .null),
                        ("pending", .obj []), ("shown_session", .obj [])] lo := by
                      simpa using hml.symm
                    have hR : getPath (.obj data) ("learning" :: "shown_session" :: k3 :: rest3)
                        = getPath (.obj lo) ("shown_session" :: k3 :: rest3) := by
                      show (match dictGet data "learning" with
                        | some v => getPath v ("shown_session" :: k3 :: rest3)
                        | none => none) = _
                      rw [h]
                    rw [hR]
                    rcases hss ⟨k3 :: rest3, rfl⟩ lo h with hso | ⟨so, hso⟩
                    · have hLs : dictGet L "shown_session" = some (.obj []) := by
                        rw [hLd, dictGet_deep_merge]
                        rw [show dictGet [("enabled", JVal.bool true), ("last_reset", JVal.null),
                          ("pending", JVal.obj []), ("shown_session", JVal.obj [])] "shown_session"
                          = some (.obj []) from rfl, hso]
                      have hL2s : dictGet L2 "shown_session" = some (.obj []) :=
                        hss_keep [] hLs
                      have hL0 : getPath (.obj L2) ("shown_session" :: k3 :: rest3) = none := by
                        show (match dictGet L2 "shown_session" with
                          | some v => getPath v (k3 :: rest3) | none => none) = none
                        rw [hL2s]
                        rfl
                      have hR0 : getPath (.obj lo) ("shown_session" :: k3 :: rest3) = none := by
                        show (match dictGet lo "shown_session" with
                          | some v => getPath v (k3 :: rest3) | none => none) = none
                        rw [hso]
                      rw [hL0, hR0]
                    · have hLs : dictGet L "shown_session"
                          = some (.obj (deep_merge [] so)) := by
                        rw [hLd, dictGet_deep_merge]
                        rw [show dictGet [("enabled", JVal.bool true), ("last_reset", JVal.null),
                          ("pending", JVal.obj []), ("shown_session", JVal.obj [])] "shown_session"
                          = some (.obj []) from rfl, hso]
                        rfl
                      have hL2s : dictGet L2 "shown_session"
                          = some (.obj (deep_merge [] so)) := hss_keep _ hLs
                      have hL0 : getPath (.obj L2) ("shown_session" :: k3 :: rest3)
                          = getPath (.obj (deep_merge [] so)) (k3 :: rest3) := by
                        show (match dictGet L2 "shown_session" with
                          | some v => getPath v (k3 :: rest3) | none => none) = _
                        rw [hL2s]
                      have hR0 : getPath (.obj lo) ("shown_session" :: k3 :: rest3)
                          = getPath (.obj so) (k3 :: rest3) := by
                        show (match dictGet lo "shown_session" with
                          | some v => getPath v (k3 :: rest3) | none => none) = _
                        rw [hso]
                      rw [hL0, hR0]
                      exact getPath_deep_merge (k3 :: rest3) [] so rfl
              · by_cases hk2e : k2 = "enabled"
                · subst hk2e
                  exfalso
                  cases rest2 with
                  | nil =>
                    rw [show getPath (.obj [("enabled", JVal.bool true), ("last_reset", JVal.null),
                        ("pending", JVal.obj []), ("shown_session", JVal.obj [])]) ["enabled"]
                        = some (.bool true) from rfl] at hunk2
                    simp at hunk2
                  | cons k3 rest3 =>
                    rcases hanc ["learning", "enabled"] ⟨k3 :: rest3, rfl⟩ (by simp)
                        with hq | ⟨o, hq⟩ <;>
                      rw [show getPath (.obj default_config) ["learning", "enabled"]
                        = some (.bool true) from rfl] at hq <;>
                      simp at hq
                · by_cases hk2l : k2 = "last_reset"
                  · subst hk2l
                    exfalso
                    cases rest2 with
                    | nil =>
                      rw [show getPath (.obj [("enabled", JVal.bool true),
                          ("last_reset", JVal.null), ("pending", JVal.obj []),
                          ("shown_session", JVal.obj [])]) ["last_reset"]
                          = some .null from rfl] at hunk2
                      simp at hunk2
                    | cons k3 rest3 =>
                      rcases hanc ["learning", "last_reset"] ⟨k3 :: rest3, rfl⟩ (by simp)
                          with hq | ⟨o, hq⟩ <;>
                        rw [show getPath (.obj default_config) ["learning", "last_reset"]
                          = some .null from rfl] at hq <;>
                        simp at hq
                  · have hLHS2 : getPath (.obj L2) (k2 :: rest2)
                        = getPath (.obj L) (k2 :: rest2) := by
                      show (match dictGet L2 k2 with
                        | some v => getPath v rest2 | none => none) = _
                      rw [hL2k k2 hk2p hk2s hk2st]
                      rfl
                    rw [hLHS2]
                    rcases hdl with h | ⟨lo, h⟩
                    · have hml2 : dictGet M "learning"
                          = some (.obj [("enabled", .bool true), ("last_reset", .null),
                                        ("pending", .obj []), ("shown_session", .obj [])]) := by
                        rw [hM, dictGet_deep_merge, hdlrn, h]
                      rw [hml2] at hml
                      have hLd : L = [("enabled", .bool true), ("last_reset", .null),
                          ("pending", .obj []), ("shown_session", .obj [])] := by
                        simpa using hml.symm
                      have hL0 : getPath (.obj L) (k2 :: rest2) = none := by
                        rw [hLd]
                        show (match dictGet [("enabled", JVal.bool true), ("last_reset", JVal.null),
                          ("pending", JVal.obj []), ("shown_session", JVal.obj [])] k2 with
                          | some v => getPath v rest2 | none => none) = none
                        rw [show dictGet [("enabled", JVal.bool true), ("last_reset", JVal.null),
                          ("pending", JVal.obj []), ("shown_session", JVal.obj [])] k2 = none from by
                          simp [dictGet, Ne.symm hk2e, Ne.symm hk2l, Ne.symm hk2p, Ne.symm hk2s]]
                      have hR : getPath (.obj data) ("learning" :: k2 :: rest2) = none := by
                        show (match dictGet data "learning" with
                          | some v => getPath v (k2 :: rest2) | none => none) = none
                        rw [h]
                      rw [hL0, hR]
                    · have hml2 : dictGet M "learning"
                          = some (.obj (deep_merge [("enabled", .bool true), ("last_reset", .null),
                              ("pending", .obj []), ("shown_session", .obj [])] lo)) := by
                        rw [hM, dictGet_deep_merge, hdlrn, h]
                        rfl
                      rw [hml2] at hml
                      have hLd : L = deep_merge [("enabled", .bool true), ("last_reset", .null),
                          ("pending", .obj []), ("shown_session", .obj [])] lo := by
                        simpa using hml.symm
                      have hR : getPath (.obj data) ("learning" :: k2 :: rest2)
                          = getPath (.obj lo) (k2 :: rest2) := by
                        show (match dictGet data "learning" with
                          | some v => getPath v (k2 :: rest2) | none => none) = _
                        rw [h]
                      rw [hR, hLd]
                      exact getPath_deep_merge (k2 :: rest2) _ lo hunk2
      · have hLHS : getPath (.obj C) (k :: rest) = getPath (.obj M) (k :: rest) := by
          show (match dictGet C k with | some v => getPath v rest | none => none)
            = (match dictGet M k with | some v => getPath v rest | none => none)
          rw [hC, dictGet_dictSet_ne _ _ _ _ hkl, dictGet_dictSet_ne _ _ _ _ hkf]
        rw [hLHS, hM]
        exact getPath_deep_merge (k :: rest) default_config data hunk

/-- Witness for C9: an unknown top-level key passes through normalization
verbatim, via the theorem at a concrete document. -/
theorem normalize_unknown_keys_preserved_witness :
    (normalize_config [("extra", .num 7)]).map
      (fun cfg => getPath (.obj cfg) ["extra"]) = some (some (.num 7)) := by
  obtain ⟨cfg, h1, h2⟩ := normalize_unknown_keys_preserved [("extra", .num 7)] ["extra"]
    (Or.inl rfl) (Or.inl rfl) rfl
    (by
      intro q hq hqne
      rcases hq with ⟨t, ht⟩
      match q, ht with
      | [], _ => exact Or.inr ⟨default_config, rfl⟩
      | [a], ht =>
        simp at ht
        exact absurd (by rw [ht.1]) hqne
      | a :: b :: q', ht => simp at ht)
    (by intro hpre; rcases hpre with ⟨t, ht⟩; simp at ht)
    (by intro hpre; rcases hpre with ⟨t, ht⟩; simp at ht)
  rw [h1, Option.map_some', h2]
  rfl

/-- Counterexample for C9: the legacy learning.shown_today key does not
appear in the defaults, yet normalization removes it instead of preserving
it verbatim. -/
theorem normalize_unknown_keys_cex :
    getPath (.obj default_config) ["learning", "shown_today"] = none ∧
    getPath (.obj [("learning", JVal.obj [("shown_today", JVal.obj [("a", JVal.str "t")])])])
      ["learning", "shown_today"] = some (.obj [("a", .str "t")]) ∧
    (normalize_config [("learning", .obj [("shown_today", .obj [("a", .str "t")])])]).map
      (fun cfg => getPath (.obj cfg) ["learning", "shown_today"]) = some none :=
  ⟨rfl, rfl, rfl⟩

end NotifyXS
